import Mathlib

/-!
Verification of the worker core of the cgs-glassbid document-processing
pipeline, shallowly embedded from the Python sources under `worker/src/`.

Conventions of the embedding:
* Python `float` arithmetic is modelled exactly over `ℚ`; `round(x, 2)`
  (round-half-to-even) and `int(x)` (truncation toward zero) are made
  explicit.
* Database tables are modelled as lists of typed rows; a claim query is an
  atomic transformation of the table (each claim in the source is a single
  `FOR UPDATE SKIP LOCKED` transaction, so concurrent invocations
  serialize).
* JSON documents (the SSOT) are modelled as typed structures whose optional
  fields mirror the `dict.get(key, default)` accesses of the source.
* Side effects that do not touch job status / SSOT (logging, object-store
  uploads, `updated_at` timestamps) are not represented.
-/

namespace GlassBid

/-! ### Python numeric / string primitives -/

/-- Python `round(q, 2)`: round-half-to-even at two decimal places. -/
def roundHalfEven (q : ℚ) : ℤ :=
  let f : ℤ := ⌊q⌋
  let r : ℚ := q - f
  if r < 1/2 then f
  else if 1/2 < r then f + 1
  else if f % 2 = 0 then f else f + 1

/-- Python `round(x, 2)` on the exact rational model. -/
def round2 (q : ℚ) : ℚ := (roundHalfEven (q * 100) : ℚ) / 100

/-- Python `int(x)`: truncation toward zero. -/
def pyInt (q : ℚ) : ℤ := if 0 ≤ q then ⌊q⌋ else ⌈q⌉

/-- Python `str.upper()` (ASCII, sufficient for exception class names). -/
def pyUpper (s : String) : String := String.mk (s.toList.map Char.toUpper)

/-- Python `str.lower()` (ASCII keywords only in this code base). -/
def pyLower (s : String) : String := String.mk (s.toList.map Char.toLower)

/-- Python `needle in hay` on strings: substring containment. -/
def strContains (hay needle : String) : Bool :=
  let rec go : List Char → Bool
    | [] => needle.toList.isPrefixOf ([] : List Char)
    | c :: t => needle.toList.isPrefixOf (c :: t) || go t
  go hay.toList

/-! ### `config.py` defaults -/

def MAX_RENDER_PIXELS : ℤ := 8000
def MAX_RENDER_DPI : ℤ := 400
def PNG_THUMB_DPI : ℤ := 72
def PNG_MEASURE_DPI : ℤ := 200
def BUCKET_OUTPUTS : String := "outputs"
def BUCKET_PAGE_CACHE : String := "page-cache"

/-! ### `renderer.py` : `_clamp_dpi` -/

/-- `_clamp_dpi(page_width_pts, page_height_pts, requested_dpi)` from
`worker/src/renderer.py`.  Page dimensions are points (exact rationals),
the result is the integer DPI handed to the rasterizer. -/
def clampDpi (pageWidthPts pageHeightPts : ℚ) (requestedDpi : ℤ) : ℤ :=
  let dpi := min requestedDpi MAX_RENDER_DPI
  let widthPx : ℚ := pageWidthPts / 72 * dpi
  let heightPx : ℚ := pageHeightPts / 72 * dpi
  let longest := max widthPx heightPx
  let dpi := if (MAX_RENDER_PIXELS : ℚ) < longest
    then pyInt ((dpi : ℚ) * ((MAX_RENDER_PIXELS : ℚ) / longest))
    else dpi
  max dpi 36

/-! ### `db.py` : render-request queue -/

/-- A row of the `render_requests` table.  `createdAt` is an abstract
timestamp (seconds); `dpi` the requested render DPI. -/
structure RenderRequest where
  id : String
  jobId : String
  pageNum : ℕ
  kind : String
  dpi : ℤ
  status : String
  createdAt : ℤ
  deriving DecidableEq, Repr

/-- Pick the row minimizing `key`, keeping the earlier row on ties (the
`ORDER BY … LIMIT 1` of a single SQL statement; tie order in SQL is
unspecified, the model keeps table order). -/
def minByKey (key : RenderRequest → ℤ) : List RenderRequest → Option RenderRequest
  | [] => none
  | r :: rs =>
    match minByKey key rs with
    | none => some r
    | some b => if key b < key r then some b else some r

/-- `claim_render_request(worker_id)` from `worker/src/db.py`:
`SELECT … FROM render_requests WHERE status = 'PENDING'
ORDER BY created_at LIMIT 1`.  The row is returned as-is; render requests
have no lock columns, so the table is unchanged. -/
def claimRenderRequest (table : List RenderRequest) : Option RenderRequest :=
  minByKey (·.createdAt) (table.filter (·.status = "PENDING"))

/-! ### `db.py` : main-job claim -/

/-- The columns of a `jobs` row that the claim protocol touches. -/
structure JobRow where
  id : String
  status : String
  lockedAt : Option ℤ
  lockedBy : Option String
  nextRunAt : Option ℤ
  createdAt : ℤ
  deriving DecidableEq, Repr

/-- The `WHERE` clause of `claim_main_job` (invariant I1), evaluated with
`NOW()` = `now` (seconds; the 10-minute interval is 600 seconds). -/
def eligible (now : ℤ) (j : JobRow) : Bool :=
  (j.status = "UPLOADED" || j.status = "REVIEWED" || j.status = "PRICED")
    && (match j.lockedAt with
        | none => true
        | some t => t < now - 600)
    && (match j.nextRunAt with
        | none => true
        | some t => t ≤ now)

/-- Pick the oldest row by `createdAt` (ties keep table order). -/
def oldestBy : List JobRow → Option JobRow
  | [] => none
  | r :: rs =>
    match oldestBy rs with
    | none => some r
    | some b => if b.createdAt < r.createdAt then some b else some r

/-- `claim_main_job(worker_id)` from `worker/src/db.py` as one atomic
transaction: select the oldest eligible row, set
`locked_at = NOW(), locked_by = worker_id` on it, and return the selected
row together with the updated table.  (The source returns the row as read
by the `SELECT`, i.e. before the `UPDATE`.) -/
def claimMainJob (now : ℤ) (workerId : String) (table : List JobRow) :
    Option JobRow × List JobRow :=
  match oldestBy (table.filter (eligible now)) with
  | none => (none, table)
  | some row =>
    (some row,
     table.map fun j =>
       if j.id = row.id then { j with lockedAt := some now, lockedBy := some workerId } else j)

/-- Run a sequence of claim invocations `(time, workerId)` in serialization
order (each claim is a single transaction on the shared table), collecting
each invocation's result. -/
def runClaims : List (ℤ × String) → List JobRow → List (Option JobRow) × List JobRow
  | [], table => ([], table)
  | (t, w) :: rest, table =>
    let (res, table1) := claimMainJob t w table
    let (results, table2) := runClaims rest table1
    (res :: results, table2)

/-! ### SSOT data model (JSON document on the job row)

Optional fields mirror `dict.get(key, default)` accesses in the source:
`none` is an absent key.  Only the keys the worker reads or writes are
represented. -/

/-- One `dimensions.{width|height|depth}` entry of an item. -/
structure DimEntry where
  value : Option ℚ
  unit : String
  source : String
  confidence : ℚ
  deriving DecidableEq, Repr

/-- The `dimensions` sub-object of an item (`dims.get(key, {})`). -/
structure Dimensions where
  width : Option DimEntry
  height : Option DimEntry
  depth : Option DimEntry
  deriving DecidableEq, Repr

/-- A scope item of `ssot.items`, with the fields built by
`_extract_items_from_page`. -/
structure Item where
  itemId : String
  category : String
  unitId : String
  location : String
  configuration : String
  templateId : String
  dimensions : Dimensions
  glassType : String
  hardware : List String
  flags : List String
  notes : String
  sourcePages : List ℕ
  quantityPerUnit : ℚ
  deriving DecidableEq, Repr

/-- `item.get("dimensions", {}).get(key, {}).get("value")`. -/
def Item.widthValue (i : Item) : Option ℚ := i.dimensions.width.bind (·.value)

def Item.heightValue (i : Item) : Option ℚ := i.dimensions.height.bind (·.value)

def Item.depthValue (i : Item) : Option ℚ := i.dimensions.depth.bind (·.value)

/-- The per-component `breakdown` of a pricing line item. -/
structure Breakdown where
  glass : ℚ
  hardware : ℚ
  labor : ℚ
  other : ℚ
  deriving DecidableEq, Repr

/-- A `pricing.lineItems` entry.  `totalPrice` is optional to mirror
`li.get("totalPrice", 0)` on hand-edited documents. -/
structure LineItem where
  itemId : String
  description : String
  unitPrice : Option ℚ
  quantity : ℚ
  totalPrice : Option ℚ
  breakdown : Option Breakdown
  manualOverride : Bool
  overrideReason : Option String
  deriving DecidableEq, Repr

/-- A rule snapshot stored in `ssot.pricing.rules`. -/
structure AppliesTo where
  category : Option String
  configuration : Option String
  deriving DecidableEq, Repr

/-- `formula_json` of a pricing rule. -/
structure Formula where
  ftype : Option String
  unitPrice : Option ℚ
  rate : Option ℚ
  amount : Option ℚ
  deriving DecidableEq, Repr

structure RuleSnap where
  ruleId : String
  name : String
  category : Option String
  formula : Formula
  appliesTo : Option AppliesTo
  deriving DecidableEq, Repr

/-- The `ssot.pricing` slice. -/
structure Pricing where
  pricebookVersionId : Option String
  pricebookSnapshotDate : Option String
  rules : List RuleSnap
  lineItems : List LineItem
  subtotal : Option ℚ
  tax : Option ℚ
  total : Option ℚ
  deriving DecidableEq, Repr

/-- An `ssot.outputs` entry.  `otype`/`version` are optional to mirror
`out.get("type")` / `out.get("version", 0)`. -/
structure OutputEntry where
  outputId : String
  otype : Option String
  version : Option ℤ
  bucket : String
  key : String
  generatedAt : String
  sha256 : String
  deriving DecidableEq, Repr

/-- An `ssot.pageIndex` entry written by INDEXING. -/
structure PageEntry where
  pageNum : ℕ
  classification : String
  confidence : ℚ
  relevantTo : List String
  deriving DecidableEq, Repr

/-- The `ssot.routing` slice. -/
structure Routing where
  relevantPages : List ℕ
  totalPages : ℕ
  deriving DecidableEq, Repr

/-- An `ssot.measurementTasks` entry written by EXTRACTING. -/
structure MTask where
  taskId : String
  itemId : String
  dimensionKey : String
  status : String
  pageNum : ℕ
  calibration : Option String
  measuredValue : Option ℚ
  measuredBy : Option String
  measuredAt : Option String
  deriving DecidableEq, Repr

/-- `ssot.metadata` (only `pageCount` is touched by the worker; other
client/project keys are never read or written by these stages). -/
structure Metadata where
  pageCount : Option ℕ
  deriving DecidableEq, Repr

/-- The SSOT JSON document.  Each field is `none` when the key is absent. -/
structure Ssot where
  metadata : Option Metadata
  pageIndex : Option (List PageEntry)
  routing : Option Routing
  items : Option (List Item)
  measurementTasks : Option (List MTask)
  assumptions : Option (List String)
  exclusions : Option (List String)
  pricing : Option Pricing
  outputs : Option (List OutputEntry)
  deriving DecidableEq, Repr

/-- The empty JSON document `{}`. -/
def Ssot.empty : Ssot :=
  ⟨none, none, none, none, none, none, none, none, none⟩

/-! ### Validation errors and stage progress payloads -/

/-- `ValidationError.to_dict()` from `worker/src/generators/validation.py`. -/
structure VError where
  code : String
  message : String
  itemId : Option String
  deriving DecidableEq, Repr

/-- The union of the `stage_progress` payloads the stages write (each call
site fills the keys it uses, the rest stay `none`). -/
structure StageProgress where
  stage : String
  status : Option String
  errors : List VError
  currentPage : Option ℕ
  totalPages : Option ℕ
  pagesProcessed : Option ℕ
  itemsFound : Option ℕ
  measurementTasks : Option ℕ
  lineItems : Option ℕ
  total : Option ℚ
  relevantPages : Option ℕ
  outputs : List String
  deriving DecidableEq, Repr

/-- A progress payload with only the `stage` key set. -/
def StageProgress.base (stage : String) : StageProgress :=
  ⟨stage, none, [], none, none, none, none, none, none, none, none, []⟩

/-! ### `db.py` : `update_job_status` and the job state -/

/-- The job-row state a stage function can observe or modify (plus the
retry counters used by `process_main_job`).  `updatedAt` is not modelled:
every update refreshes it. -/
structure JobState where
  status : String
  ssot : Ssot
  stageProgress : Option StageProgress
  errorCode : Option String
  errorMessage : Option String
  lockedAt : Option ℤ
  lockedBy : Option String
  nextRunAt : Option ℤ
  retryCount : ℕ
  maxRetries : ℕ
  deriving DecidableEq, Repr

/-- `update_job_status(job_id, new_status, *, stage_progress, error_message,
error_code, clear_lock, ssot)` from `worker/src/db.py`: a `none` keyword
argument leaves the column untouched (the source only adds the `SET`
clause when the argument is not `None`). -/
def updateJobStatus (j : JobState) (newStatus : String)
    (stageProgress : Option StageProgress) (errorMessage errorCode : Option String)
    (clearLock : Bool) (ssot : Option Ssot) : JobState :=
  { j with
    status := newStatus
    lockedAt := if clearLock then none else j.lockedAt
    lockedBy := if clearLock then none else j.lockedBy
    stageProgress := match stageProgress with | some p => some p | none => j.stageProgress
    errorMessage := match errorMessage with | some m => some m | none => j.errorMessage
    errorCode := match errorCode with | some c => some c | none => j.errorCode
    ssot := match ssot with | some s => s | none => j.ssot }

/-- `mark_job_failed(job_id, error_message, error_code)`: terminal FAILED
update (with the default `clear_lock=True`). -/
def markJobFailed (j : JobState) (errorMessage errorCode : String) : JobState :=
  updateJobStatus j "FAILED" none (some errorMessage) (some errorCode) true none

/-- `increment_retry(job_id, backoff_seconds)`: one atomic statement. -/
def incrementRetry (j : JobState) (now backoffSeconds : ℤ) : JobState :=
  { j with
    retryCount := j.retryCount + 1
    nextRunAt := some (now + backoffSeconds)
    lockedAt := none
    lockedBy := none }

/-! ### `main.py` : retry policy of `process_main_job` -/

def BACKOFF_SECONDS : List ℤ := [30, 120, 600]

/-- The `except Exception` handler of `process_main_job`
(`worker/src/main.py`): `excClassName` is `type(e).__name__` and `excMsg`
is `str(e)`. -/
def processMainJobOnException (j : JobState) (now : ℤ)
    (excClassName excMsg : String) : JobState :=
  if j.retryCount < j.maxRetries then
    let backoff := (BACKOFF_SECONDS.getD (min j.retryCount (BACKOFF_SECONDS.length - 1)) 0)
    incrementRetry j now backoff
  else
    markJobFailed j excMsg (pyUpper excClassName)

/-! ### Numeric rendering for message strings

Messages are not load-bearing for any claim; the renderers below realize
Python's `"{:.2f}".format` exactly and `str(float)` up to the repr of the
exact rational (binary-float repr artifacts are not reproduced). -/

def natPad2 (n : ℕ) : String := if n < 10 then "0" ++ toString n else toString n

/-- Python `"{:.2f}".format(q)` on the exact rational model. -/
def fmt2 (q : ℚ) : String :=
  let n := roundHalfEven (q * 100)
  let a := n.natAbs
  (if n < 0 then "-" else "") ++ toString (a / 100) ++ "." ++ natPad2 (a % 100)

def padZeros (n k : ℕ) : String :=
  let s := toString n
  String.mk (List.replicate (k - s.length) '0') ++ s

/-- Python `str(v)` for a float value, rendered from the exact rational. -/
def qstr (q : ℚ) : String :=
  let sign := if q < 0 then "-" else ""
  let a := |q|
  match (List.range 21).find? (fun k => (a * 10 ^ k).den = 1) with
  | some k =>
    let k := max k 1
    let m := (a * 10 ^ k).num.natAbs
    sign ++ toString (m / 10 ^ k) ++ "." ++ padZeros (m % 10 ^ k) k
  | none => sign ++ toString a.num.natAbs ++ "/" ++ toString a.den

/-- Python `str(("a", "b", "c"))`: repr of the duplicate-check key tuple. -/
def tupleRepr (a b c : String) : String :=
  "('" ++ a ++ "', '" ++ b ++ "', '" ++ c ++ "')"

/-! ### `generators/validation.py` -/

/-- First-occurrence deduplication: the model's stand-in for Python `set`
iteration order (which is unspecified; no claim depends on the order of
CONSISTENCY errors). -/
def dedupFirst (l : List String) : List String :=
  l.foldl (fun acc x => if acc.contains x then acc else acc ++ [x]) []

/-- The range check of `validate_ssot_for_generation` for one dimension of
one item. -/
def rangeErrorsFor (item : Item) (dimKey : String) (val : Option ℚ) : List VError :=
  match val with
  | none => []
  | some v =>
    if item.category = "SHOWER_ENCLOSURE" then
      if v < 6 ∨ 240 < v then
        [⟨"RANGE_ERROR",
          "Shower " ++ dimKey ++ " (" ++ qstr v ++ "\") out of range [6, 240]",
          some item.itemId⟩]
      else []
    else if item.category = "VANITY_MIRROR" then
      if v < 6 ∨ 120 < v then
        [⟨"RANGE_ERROR",
          "Mirror " ++ dimKey ++ " (" ++ qstr v ++ "\") out of range [6, 120]",
          some item.itemId⟩]
      else []
    else []

/-- The duplicate sweep of `validate_ssot_for_generation`: `seen` is the
running set of `(unitId, location, category)` keys. -/
def duplicateSweep : List Item → List (String × String × String) → List VError
  | [], _ => []
  | item :: rest, seen =>
    let key := (item.unitId, item.location, item.category)
    let here :=
      if seen.contains key ∧ item.quantityPerUnit ≤ 1 then
        [⟨"DUPLICATE_WARNING",
          "Possible duplicate: " ++ tupleRepr item.unitId item.location item.category,
          some item.itemId⟩]
      else []
    here ++ duplicateSweep rest (key :: seen)

/-- `validate_ssot_for_generation(ssot)` from
`worker/src/generators/validation.py`. -/
def validateSsotForGeneration (ssot : Ssot) : List VError :=
  let items := ssot.items.getD []
  let pricing := ssot.pricing
  let lineItems := (pricing.map (·.lineItems)).getD []
  -- math check
  let computed := (lineItems.map (fun li => li.totalPrice.getD 0)).sum
  let declared := (pricing.bind (·.subtotal)).getD 0
  let mathErrs :=
    if 1/100 < |computed - declared| then
      [⟨"MATH_ERROR",
        "Sum of line item totals (" ++ fmt2 computed ++ ") != declared subtotal ("
          ++ fmt2 declared ++ ")", none⟩]
    else []
  -- range checks
  let rangeErrs :=
    (items.map (fun item =>
      rangeErrorsFor item "width" item.widthValue
        ++ rangeErrorsFor item "height" item.heightValue)).flatten
  -- consistency: set differences of item ids vs priced ids
  let itemIds := dedupFirst (items.map (·.itemId))
  let pricedIds := dedupFirst (lineItems.map (·.itemId))
  let missingErrs :=
    (itemIds.filter (fun i => ¬ pricedIds.contains i)).map (fun mid =>
      (⟨"CONSISTENCY_ERROR",
        "Item " ++ mid ++ " has no corresponding pricing line item", some mid⟩ : VError))
  let orphanErrs :=
    (pricedIds.filter (fun i => ¬ itemIds.contains i)).map (fun oid =>
      (⟨"CONSISTENCY_ERROR",
        "Pricing line item " ++ oid ++ " has no corresponding item", some oid⟩ : VError))
  -- completeness: null dimension without TBV flag
  let completenessErrs :=
    (items.map (fun item =>
      (if item.widthValue = none ∧ ¬ item.flags.contains "TO_BE_VERIFIED_IN_FIELD" then
        [(⟨"COMPLETENESS_ERROR",
          "Item " ++ item.itemId ++ " has null width without TBV flag",
          some item.itemId⟩ : VError)]
      else [])
      ++ (if item.heightValue = none ∧ ¬ item.flags.contains "TO_BE_VERIFIED_IN_FIELD" then
        [(⟨"COMPLETENESS_ERROR",
          "Item " ++ item.itemId ++ " has null height without TBV flag",
          some item.itemId⟩ : VError)]
      else []))).flatten
  -- template match
  let templateErrs :=
    (items.map (fun item =>
      if item.configuration = "unknown" ∨ item.configuration = "" then
        [(⟨"TEMPLATE_ERROR",
          "Item " ++ item.itemId ++ " has no configuration mapping",
          some item.itemId⟩ : VError)]
      else [])).flatten
  -- duplicate check
  let dupErrs := duplicateSweep items []
  mathErrs ++ rangeErrs ++ missingErrs ++ orphanErrs ++ completenessErrs
    ++ templateErrs ++ dupErrs

/-! ### `pipeline/generate.py` : GENERATING stage -/

/-- The outcome of one successful artifact generation: the fresh
`uuid.uuid4()`, the file hash, and the ISO timestamp — external
nondeterminism of `run_generation` (PDF bytes are opaque to this spec). -/
structure GenArtifact where
  outputId : String
  sha256 : String
  generatedAt : String
  deriving DecidableEq, Repr

/-- The environment of one `run_generation` call: the bid artifact always
succeeds on the modelled (non-raising) path; `shopResult = none` models
the `ImportError` / non-blocking shop-drawings failure branch. -/
structure GenEnv where
  bid : GenArtifact
  shopResult : Option GenArtifact
  deriving DecidableEq, Repr

/-- An error is blocking iff its code does not contain `"WARNING"`. -/
def isBlocking (e : VError) : Bool := ¬ strContains e.code "WARNING"

/-- The version fold of `run_generation`: start at 1 and take
`max(version, out.version + 1)` over existing outputs of type `t`. -/
def versionFold (outs : List OutputEntry) (t : String) : ℤ :=
  outs.foldl
    (fun acc o => if o.otype = some t then max acc (o.version.getD 0 + 1) else acc) 1

/-- `run_generation(job)` from `worker/src/pipeline/generate.py`, on the
path where PDF generation itself does not raise.  `projectId`/`jobId`
build the object keys. -/
def runGeneration (env : GenEnv) (projectId jobId : String) (j : JobState) : JobState :=
  let j1 := updateJobStatus j "GENERATING" none none none false none
  let ssot := j.ssot
  let errors := validateSsotForGeneration ssot
  let blocking := errors.filter isBlocking
  if blocking ≠ [] then
    updateJobStatus j1 "PRICED"
      (some { StageProgress.base "generating" with
              status := some "validation_failed", errors := blocking })
      (some ("Validation failed: " ++ toString blocking.length ++ " error(s)"))
      (some "VALIDATION_ERROR") true (some ssot)
  else
    let existingOutputs := ssot.outputs.getD []
    let bidVersion := versionFold existingOutputs "BID_PDF"
    let shopVersion := versionFold existingOutputs "SHOP_DRAWINGS_PDF"
    let bidKey := projectId ++ "/" ++ jobId ++ "/bid-v" ++ toString bidVersion ++ ".pdf"
    let bidOutput : OutputEntry :=
      { outputId := env.bid.outputId, otype := some "BID_PDF",
        version := some bidVersion, bucket := BUCKET_OUTPUTS, key := bidKey,
        generatedAt := env.bid.generatedAt, sha256 := env.bid.sha256 }
    let shopOutput : Option OutputEntry := env.shopResult.map (fun s =>
      { outputId := s.outputId, otype := some "SHOP_DRAWINGS_PDF",
        version := some shopVersion, bucket := BUCKET_OUTPUTS,
        key := projectId ++ "/" ++ jobId ++ "/shop-drawings-v"
                 ++ toString shopVersion ++ ".pdf",
        generatedAt := s.generatedAt, sha256 := s.sha256 })
    let outputs :=
      existingOutputs.filter
        (fun o => ¬ (o.otype = some "BID_PDF" ∨ o.otype = some "SHOP_DRAWINGS_PDF"))
        ++ [bidOutput] ++ shopOutput.toList
    let ssot1 := { ssot with outputs := some outputs }
    updateJobStatus j1 "DONE"
      (some { StageProgress.base "generating" with
              status := some "complete",
              outputs := [bidKey] ++ (shopOutput.map (·.key)).toList })
      none none true (some ssot1)

/-! ### `pipeline/price.py` : PRICING stage -/

/-- Replace every occurrence of character `c` by `d` (the source only
replaces single-character patterns, `"-"` and `"_"`). -/
def replaceChar (c d : Char) (s : String) : String :=
  String.mk (s.toList.map (fun ch => if ch = c then d else ch))

/-- Python `str.title()`: first letter of each alphabetic run uppercased,
the rest lowercased (ASCII suffices here). -/
def pyTitle (s : String) : String :=
  String.mk (s.toList.foldl
    (fun (acc : List Char × Bool) c =>
      if c.isAlpha then
        (acc.1 ++ [if acc.2 then c.toLower else c.toUpper], true)
      else (acc.1 ++ [c], false))
    ([], false)).1

/-- Python `x or d` for an optional float: `None` and `0.0` are falsy. -/
def pyOr (v : Option ℚ) (d : ℚ) : ℚ :=
  match v with
  | some x => if x = 0 then d else x
  | none => d

/-- A `pricebook_versions` row (the highest-version one). -/
structure Pricebook where
  id : String
  version : ℤ
  effectiveDate : Option String
  notes : String
  deriving DecidableEq, Repr

/-- An active `pricing_rules` row as returned by `_get_active_pricebook`. -/
structure Rule where
  id : String
  name : String
  category : Option String
  formulaJson : Formula
  appliesTo : Option AppliesTo
  deriving DecidableEq, Repr

/-- `_evaluate_formula(formula, item)` from `worker/src/pipeline/price.py`. -/
def evaluateFormula (formula : Formula) (item : Item) : ℚ :=
  let ftype := formula.ftype.getD "unit_price"
  if ftype = "unit_price" then formula.unitPrice.getD 0
  else if ftype = "per_sqft" then
    let rate := formula.rate.getD 0
    let width := pyOr item.widthValue 0
    let height := pyOr item.heightValue 0
    let sqft := width * height / 144
    rate * sqft
  else if ftype = "fixed" then formula.amount.getD 0
  else 0

/-- `_rule_applies(rule, item)`: `applies_to = None` (or `{}`) is a
universal rule; a present, non-empty `category`/`configuration` must
match. -/
def ruleApplies (rule : Rule) (item : Item) : Bool :=
  match rule.appliesTo with
  | none => true
  | some a =>
    (match a.category with
     | none => true
     | some c => if c = "" then true else decide (item.category = c))
    && (match a.configuration with
        | none => true
        | some c => if c = "" then true else decide (item.configuration = c))

/-- `_compute_breakdown(item, unit_price, rules)`; each component rounded
independently. -/
def computeBreakdown (item : Item) (unitPrice : ℚ) (_rules : List Rule) : Breakdown :=
  let glassPct : ℚ := if item.category = "VANITY_MIRROR" then 55/100 else 40/100
  let hardwarePct : ℚ := if item.category = "VANITY_MIRROR" then 10/100 else 25/100
  let laborPct : ℚ := if item.category = "VANITY_MIRROR" then 25/100 else 30/100
  let otherPct : ℚ := if item.category = "VANITY_MIRROR" then 10/100 else 5/100
  { glass := round2 (unitPrice * glassPct)
    hardware := round2 (unitPrice * hardwarePct)
    labor := round2 (unitPrice * laborPct)
    other := round2 (unitPrice * otherPct) }

/-- `next((li for li in prev if li.get("itemId") == item_id and
li.get("manualOverride")), None)`. -/
def findOverride (prev : List LineItem) (itemId : String) : Option LineItem :=
  prev.find? (fun li => decide (li.itemId = itemId) && li.manualOverride)

/-- The category-default fallback price of `run_pricing` (reached only if
no rule applied and the price is still zero). -/
def defaultUnitPrice (item : Item) : ℚ :=
  if item.category = "SHOWER_ENCLOSURE" then
    let w := pyOr item.widthValue 36
    let h := pyOr item.heightValue 72
    let sqft := w * h / 144
    sqft * 45
  else if item.category = "VANITY_MIRROR" then
    let w := pyOr item.widthValue 30
    let h := pyOr item.heightValue 36
    let sqft := w * h / 144
    sqft * 35
  else 0

/-- The line-item description built in `run_pricing`. -/
def descriptionOf (item : Item) : String :=
  let config := pyTitle (replaceChar '-' ' ' item.configuration)
  let parts := [pyTitle (replaceChar '_' ' ' item.category)]
    ++ (if config ≠ "" then ["(" ++ config ++ ")"] else [])
    ++ (if item.location ≠ "" then ["at " ++ item.location] else [])
  String.intercalate " " parts

/-- The body of the per-item loop of `run_pricing`: the produced line item
and its contribution to the running `subtotal`. -/
def priceLine (prev : List LineItem) (rules : List Rule) (item : Item) :
    LineItem × ℚ :=
  match findOverride prev item.itemId with
  | some l => (l, l.totalPrice.getD 0)
  | none =>
    let ruleMatch := rules.find? (fun r => ruleApplies r item)
    let unitPrice :=
      match ruleMatch with
      | some r => evaluateFormula r.formulaJson item
      | none => 0
    let unitPrice :=
      if unitPrice = 0 ∧ ruleMatch = none then defaultUnitPrice item else unitPrice
    let qty := item.quantityPerUnit
    let totalPrice := round2 (unitPrice * qty)
    ({ itemId := item.itemId
       description := descriptionOf item
       unitPrice := some (round2 unitPrice)
       quantity := qty
       totalPrice := some totalPrice
       breakdown := some (computeBreakdown item unitPrice rules)
       manualOverride := false
       overrideReason := none }, totalPrice)

/-- `run_pricing(job)` from `worker/src/pipeline/price.py`.  The active
pricebook and its rules (read from the database) are parameters. -/
def runPricing (pricebook : Option Pricebook) (rules : List Rule)
    (j : JobState) : JobState :=
  let j1 := updateJobStatus j "PRICING" none none none false none
  let ssot := j.ssot
  let items := ssot.items.getD []
  let prev := (ssot.pricing.map (·.lineItems)).getD []
  let priced := items.map (priceLine prev rules)
  let lineItems := priced.map (·.1)
  let subtotal := (priced.map (·.2)).sum
  let taxRate : ℚ := 0
  let tax := round2 (subtotal * taxRate)
  let total := round2 (subtotal + tax)
  let pricing : Pricing :=
    { pricebookVersionId := pricebook.map (·.id)
      pricebookSnapshotDate := pricebook.bind (·.effectiveDate)
      rules := rules.map (fun r => ⟨r.id, r.name, r.category, r.formulaJson, r.appliesTo⟩)
      lineItems := lineItems
      subtotal := some (round2 subtotal)
      tax := some (round2 tax)
      total := some (round2 total) }
  let ssot1 := { ssot with pricing := some pricing }
  updateJobStatus j1 "PRICED"
    (some { StageProgress.base "pricing" with
            status := some "complete"
            lineItems := some lineItems.length
            total := some total })
    none none false (some ssot1)

/-! ### A small backtracking matcher for the fixed regexes of `extract.py`

The patterns of `extract.py` are sequences of character classes, their
stars/pluses, and optional groups — no nested stars.  `RxM α` enumerates
the `(captured, rest)` alternatives of a pattern in exactly the order a
backtracking regex engine tries them (greedy first); sequencing is the
list monad, so the first element of the result list is the match the
engine reports. -/

def RxM (α : Type) : Type := List Char → List (α × List Char)

instance : Monad RxM where
  pure a := fun s => [(a, s)]
  bind p f := fun s => (p s).flatMap (fun x => f x.1 x.2)

/-- Match one character of the class `c`. -/
def rxCls (c : Char → Bool) : RxM Char := fun s =>
  match s with
  | [] => []
  | x :: t => if c x then [(x, t)] else []

/-- Greedy `C*` of a character class: longest first. -/
def rxStarCls (c : Char → Bool) : RxM (List Char) := fun s =>
  let k := (s.takeWhile c).length
  (List.range (k + 1)).map (fun i => (s.take (k - i), s.drop (k - i)))

/-- Greedy `C+` of a character class. -/
def rxPlusCls (c : Char → Bool) : RxM (List Char) := fun s =>
  (rxStarCls c s).filter (fun x => decide (1 ≤ x.1.length))

/-- Greedy `(...)?`: prefer the match. -/
def rxOpt (p : RxM α) : RxM (Option α) := fun s =>
  (p s).map (fun x => (some x.1, x.2)) ++ [(none, s)]

/-- A literal character. -/
def rxChar (c : Char) : RxM Char := rxCls (· = c)

/-- A case-insensitive literal (for patterns compiled with `re.IGNORECASE`). -/
def rxLitCI (lit : String) : RxM Unit := fun s =>
  let ll := lit.toList.map Char.toLower
  if (s.take ll.length).map Char.toLower = ll then [((), s.drop ll.length)] else []

/-- `re.match`: anchored prefix match, first alternative wins. -/
def rxMatch (p : RxM α) (s : String) : Option α :=
  match p s.toList with
  | x :: _ => some x.1
  | [] => none

/-- `re.search` / first element of `findall`: leftmost match wins. -/
def rxSearchAux (p : RxM α) : List Char → Option α
  | [] => match p [] with | x :: _ => some x.1 | [] => none
  | c :: t => match p (c :: t) with | x :: _ => some x.1 | [] => rxSearchAux p t

def rxSearch (p : RxM α) (s : String) : Option α := rxSearchAux p s.toList

/-- Python `\s` (the sources only ever see ASCII whitespace). -/
def pySpace (c : Char) : Bool := c.isWhitespace

/-- Python `str.strip()`. -/
def pyStrip (s : String) : String :=
  String.mk (((s.toList.dropWhile Char.isWhitespace).reverse.dropWhile
    Char.isWhitespace).reverse)

/-- Python `str.rstrip(c)` for a single strip character. -/
def rstripChar (s : String) (c : Char) : String :=
  String.mk ((s.toList.reverse.dropWhile (· = c)).reverse)

def digitsToNat (l : List Char) : ℕ :=
  l.foldl (fun n c => n * 10 + (c.toNat - '0'.toNat)) 0

/-! ### Python `float(text)` -/

/-- Scan a Python digit-part: digits with single underscores between
digits.  Returns the collected digits and the unconsumed rest. -/
def scanDigits : List Char → Option (List Char × List Char)
  | c :: t =>
    if c.isDigit then some (scanDigitsGo [c] t) else none
  | [] => none
where
  scanDigitsGo (acc : List Char) : List Char → List Char × List Char
    | '_' :: d :: t => if d.isDigit then scanDigitsGo (acc ++ [d]) t else (acc, '_' :: d :: t)
    | d :: t => if d.isDigit then scanDigitsGo (acc ++ [d]) t else (acc, d :: t)
    | [] => (acc, [])

/-- Python `float(text)`, restricted to finite decimal literals (the
`inf`/`nan` spellings are not produced by dimension text and are not
modelled).  The value is the exact rational of the literal. -/
def pyFloat? (s : String) : Option ℚ :=
  let l := (pyStrip s).toList
  let (neg, l) : Bool × List Char :=
    match l with
    | '-' :: t => (true, t)
    | '+' :: t => (false, t)
    | _ => (false, l)
  let (ip, l) : Option (List Char) × List Char :=
    match scanDigits l with
    | some (d, r) => (some d, r)
    | none => (none, l)
  let (fp, l) : Option (List Char) × List Char :=
    match l with
    | '.' :: t =>
      match scanDigits t with
      | some (d, r) => (some d, r)
      | none => (some [], t)
    | _ => (none, l)
  if ip = none ∧ (fp = none ∨ fp = some []) then none
  else
    let (expOk, expVal, l) : Bool × ℤ × List Char :=
      match l with
      | 'e' :: t | 'E' :: t =>
        let (eneg, t) : Bool × List Char :=
          match t with
          | '-' :: t2 => (true, t2)
          | '+' :: t2 => (false, t2)
          | _ => (false, t)
        match scanDigits t with
        | some (d, r) =>
          (true, if eneg then -(digitsToNat d : ℤ) else (digitsToNat d : ℤ), r)
        | none => (false, 0, t)
      | _ => (true, 0, l)
    if ¬ expOk ∨ l ≠ [] then none
    else
      let fpl := fp.getD []
      let mant : ℚ := (digitsToNat (ip.getD []) : ℚ)
        + (digitsToNat fpl : ℚ) / 10 ^ fpl.length
      let v := mant * (10 : ℚ) ^ expVal
      some (if neg then -v else v)

/-! ### `pipeline/extract.py` : dimension parsers -/

/-- The pattern `(\d+)\s*[-\s]\s*(\d+)/(\d+)` of `_parse_inches`
(whole number plus fraction). -/
def wholeFracPat : RxM (ℕ × ℕ × ℕ) := do
  let w ← rxPlusCls Char.isDigit
  let _ ← rxStarCls pySpace
  let _ ← rxCls (fun c => c = '-' || pySpace c)
  let _ ← rxStarCls pySpace
  let n ← rxPlusCls Char.isDigit
  let _ ← rxChar '/'
  let d ← rxPlusCls Char.isDigit
  pure (digitsToNat w, digitsToNat n, digitsToNat d)

/-- The pattern `(\d+)/(\d+)` of `_parse_inches` (bare fraction). -/
def bareFracPat : RxM (ℕ × ℕ) := do
  let n ← rxPlusCls Char.isDigit
  let _ ← rxChar '/'
  let d ← rxPlusCls Char.isDigit
  pure (digitsToNat n, digitsToNat d)

/-- `_parse_inches(text)` from `worker/src/pipeline/extract.py`. -/
def parseInches (text : String) : Option ℚ :=
  let text := pyStrip text
  if text = "" then none
  else
    match rxMatch wholeFracPat text with
    | some (whole, num, den) =>
      if den = 0 then none else some ((whole : ℚ) + (num : ℚ) / (den : ℚ))
    | none =>
      match rxMatch bareFracPat text with
      | some (num, den) =>
        if den = 0 then none else some ((num : ℚ) / (den : ℚ))
      | none => pyFloat? text

/-- The feet-inches pattern
`(\d+)\s*[']\s*-?\s*(\d+(?:\s*\d+/\d+)?)\s*[\"]*` of
`_parse_dimension_inches`; the trailing `\s*[\"]*` always matches and does
not affect the captured groups.  Returns `(feet, group(2))`. -/
def feetInchesPat : RxM (ℕ × List Char) := do
  let f ← rxPlusCls Char.isDigit
  let _ ← rxStarCls pySpace
  let _ ← rxChar '\''
  let _ ← rxStarCls pySpace
  let _ ← rxOpt (rxChar '-')
  let _ ← rxStarCls pySpace
  let w ← rxPlusCls Char.isDigit
  let inner ← rxOpt (do
    let sp ← rxStarCls pySpace
    let n ← rxPlusCls Char.isDigit
    let _ ← rxChar '/'
    let d ← rxPlusCls Char.isDigit
    pure (sp ++ n ++ ['/'] ++ d))
  pure (digitsToNat f, w ++ inner.getD [])

/-- `_parse_dimension_inches(text)` from `worker/src/pipeline/extract.py`.
Note the fall-through: a feet-inches match whose inches part fails to
parse falls back to the bare-inches branch. -/
def parseDimensionInches (text : String) : Option ℚ :=
  let t := replaceChar '″' '"' (replaceChar '′' '\'' (pyStrip text))
  let fallback := parseInches (pyStrip (rstripChar (rstripChar t '"') '\''))
  match rxMatch feetInchesPat t with
  | some (feet, g2) =>
    match parseInches (pyStrip (String.mk g2)) with
    | some inches => some ((feet : ℚ) * 12 + inches)
    | none => fallback
  | none => fallback

/-! ### `pipeline/extract.py` : keyword tables -/

def SHOWER_KEYWORDS : List String :=
  ["shower enclosure", "frameless shower", "glass enclosure",
   "shower door", "glass panel", "fixed panel", "inline panel",
   "neo-angle", "90 degree", "90°", "corner shower",
   "bypass", "sliding shower", "steam shower",
   "bathtub enclosure", "tub panel"]

def MIRROR_KEYWORDS : List String :=
  ["vanity mirror", "bathroom mirror", "mirror",
   "beveled mirror", "frameless mirror"]

/-- `CONFIGURATION_KEYWORDS` in dict insertion order. -/
def CONFIGURATION_KEYWORDS : List (String × List String) :=
  [("inline-panel", ["inline panel", "fixed panel", "single panel"]),
   ("inline-panel-door", ["panel and door", "panel + door", "inline door"]),
   ("90-degree-corner", ["90 degree corner", "90° corner", "corner panel"]),
   ("90-degree-corner-door", ["90 degree corner door", "90° corner door", "corner door"]),
   ("neo-angle", ["neo-angle", "neo angle", "neoangle"]),
   ("frameless-sliding", ["sliding", "bypass", "bypass shower"]),
   ("bathtub-fixed-panel", ["bathtub panel", "tub panel", "tub fixed"]),
   ("bathtub-panel-door", ["bathtub door", "tub door", "bathtub panel door"]),
   ("vanity-mirror", ["vanity mirror", "rectangular mirror"]),
   ("vanity-mirror-custom", ["custom mirror", "shaped mirror", "mirror cutout"]),
   ("steam-shower", ["steam shower", "steam enclosure"]),
   ("custom-enclosure", ["wine cellar", "custom enclosure", "custom glass"])]

/-- `_detect_category(text)`: shower keywords first, then mirror. -/
def detectCategory (text : String) : Option String :=
  let tl := pyLower text
  if SHOWER_KEYWORDS.any (fun kw => strContains tl kw) then some "SHOWER_ENCLOSURE"
  else if MIRROR_KEYWORDS.any (fun kw => strContains tl kw) then some "VANITY_MIRROR"
  else none

/-- `_detect_configuration(text)`: first configuration whose keyword list
hits, in dict order. -/
def detectConfiguration (text : String) : Option String :=
  let tl := pyLower text
  (CONFIGURATION_KEYWORDS.find?
    (fun ck => ck.2.any (fun kw => strContains tl kw))).map (·.1)

/-! ### `pipeline/extract.py` : `_extract_dimensions_from_text` -/

def optCharList : Option Char → List Char
  | some c => [c]
  | none => []

/-- The dimension token
`\d+['′]?\s*-?\s*\d*(?:\s*\d+/\d+)?["'″]?` shared by
`SCHEDULE_DIM_PATTERN` and the labeled-dimension patterns; the captured
text is returned. -/
def dimTok : RxM (List Char) := do
  let d1 ← rxPlusCls Char.isDigit
  let q1 ← rxOpt (rxCls (fun c => c = '\'' || c = '′'))
  let s1 ← rxStarCls pySpace
  let dash ← rxOpt (rxChar '-')
  let s2 ← rxStarCls pySpace
  let d2 ← rxStarCls Char.isDigit
  let fr ← rxOpt (do
    let sp ← rxStarCls pySpace
    let n ← rxPlusCls Char.isDigit
    let _ ← rxChar '/'
    let dd ← rxPlusCls Char.isDigit
    pure (sp ++ n ++ ['/'] ++ dd))
  let q2 ← rxOpt (rxCls (fun c => c = '"' || c = '\'' || c = '″'))
  pure (d1 ++ optCharList q1 ++ s1 ++ optCharList dash ++ s2 ++ d2
    ++ fr.getD [] ++ optCharList q2)

/-- `SCHEDULE_DIM_PATTERN`: `TOK \s*[xX×]\s* TOK` with both tokens
captured. -/
def schedulePat : RxM (List Char × List Char) := do
  let a ← dimTok
  let _ ← rxStarCls pySpace
  let _ ← rxCls (fun c => c = 'x' || c = 'X' || c = '×')
  let _ ← rxStarCls pySpace
  let b ← dimTok
  pure (a, b)

/-- The labeled-dimension pattern
`re.escape(label) + \s*[:=]?\s*( TOK )` compiled with `re.IGNORECASE`. -/
def labeledPat (label : String) : RxM (List Char) := do
  let _ ← rxLitCI label
  let _ ← rxStarCls pySpace
  let _ ← rxOpt (rxCls (fun c => c = ':' || c = '='))
  let _ ← rxStarCls pySpace
  dimTok

/-- The width/height/depth candidates of one text block. -/
structure Dims3 where
  width : Option ℚ
  height : Option ℚ
  depth : Option ℚ
  deriving DecidableEq, Repr

/-- The label list of `_extract_dimensions_from_text`, in source order;
the second component is the `dims` key the label writes. -/
def DIM_LABELS : List (String × String) :=
  [("width", "width"), ("w:", "width"), ("w =", "width"),
   ("height", "height"), ("h:", "height"), ("h =", "height"),
   ("depth", "depth"), ("d:", "depth"), ("d =", "depth"),
   ("return", "depth")]

/-- `_extract_dimensions_from_text(text)` from
`worker/src/pipeline/extract.py`: the `W x H` schedule pattern first
(early return), else the labeled dimensions with the `[3, 240]` sanity
range (later labels overwrite earlier ones for the same key). -/
def extractDimensionsFromText (text : String) : Dims3 :=
  match rxSearch schedulePat text with
  | some (w, h) =>
    { width := parseDimensionInches (String.mk w)
      height := parseDimensionInches (String.mk h)
      depth := none }
  | none =>
    DIM_LABELS.foldl (fun dims lk =>
      match rxSearch (labeledPat lk.1) text with
      | some g =>
        match parseDimensionInches (String.mk g) with
        | some v =>
          if v ≠ 0 ∧ 3 ≤ v ∧ v ≤ 240 then
            if lk.2 = "width" then { dims with width := some v }
            else if lk.2 = "height" then { dims with height := some v }
            else { dims with depth := some v }
          else dims
        | none => dims
      | none => dims)
      ⟨none, none, none⟩

/-! ### `pipeline/extract.py` : items, assumptions, the stage -/

/-- Python `s.split(sep)` for a non-empty separator: split on
non-overlapping occurrences, left to right.  The fuel argument
(initialized to the list length, which bounds the recursion depth) keeps
the recursion structural so the kernel can evaluate it. -/
def splitOnGo (sep : List Char) : ℕ → List Char → List (List Char)
  | _, [] => [[]]
  | 0, l => [l]
  | fuel + 1, c :: t =>
    if sep ≠ [] ∧ sep.isPrefixOf (c :: t) then
      [] :: splitOnGo sep fuel (t.drop (sep.length - 1))
    else
      match splitOnGo sep fuel t with
      | [] => [[c]]
      | h :: r => (c :: h) :: r

def splitOnL (sep : List Char) (l : List Char) : List (List Char) :=
  splitOnGo sep l.length l

def pySplit (s sep : String) : List String :=
  (splitOnL sep.toList s.toList).map String.mk

/-- Python `s.replace(pat, rep)` on character lists (all non-overlapping
occurrences, left to right); `pat = []` is never used here.  The fuel
argument (initialized to the list length, which bounds the recursion
depth) keeps the recursion structural so the kernel can evaluate it. -/
def strReplaceGo (pat rep : List Char) : ℕ → List Char → List Char
  | _, [] => []
  | 0, l => l
  | fuel + 1, c :: t =>
    if pat ≠ [] ∧ pat.isPrefixOf (c :: t) then
      rep ++ strReplaceGo pat rep fuel (t.drop (pat.length - 1))
    else c :: strReplaceGo pat rep fuel t

def strReplaceL (pat rep : List Char) (l : List Char) : List Char :=
  strReplaceGo pat rep l.length l

/-- Python `s.replace(pat, rep)`. -/
def strReplace (s pat rep : String) : String :=
  String.mk (strReplaceL pat.toList rep.toList s.toList)

/-- The glass-type heuristic of `_extract_items_from_page`. -/
def glassTypeOf (block : String) : String :=
  let g := "3/8 clear tempered"
  let g := if strContains (pyLower block) "1/2" then "1/2 clear tempered" else g
  let g := if strContains (pyLower block) "frosted" then strReplace g "clear" "frosted" else g
  let g := if strContains (pyLower block) "low iron" || strContains (pyLower block) "starphire"
    then strReplace g "clear" "low iron" else g
  g

/-- One `dim_entries[key]` of `_extract_items_from_page`. -/
def mkDimEntry (val : Option ℚ) : DimEntry :=
  match val with
  | some v => ⟨some v, "in", "DIMENSION_CALLOUT", 7/10⟩
  | none => ⟨none, "in", "FIELD_VERIFY", 0⟩

/-- `blocks = text.split("\n\n"); if not blocks: blocks = [text]` of
`_extract_items_from_page` (the fallback is dead: Python split never
returns an empty list). -/
def blocksOf (text : String) : List String :=
  let blocks := pySplit text "\n\n"
  if blocks = [] then [text] else blocks

/-- The item a category-bearing block of `_extract_items_from_page`
produces (`idx` indexes the uuid supply). -/
def mkBlockItem (uuidSeq : ℕ → String) (pageNum idx : ℕ)
    (block : String) (category : String) : Item :=
  let configuration := detectConfiguration block
  let dims := extractDimensionsFromText block
  let dimEntries : Dimensions :=
    ⟨some (mkDimEntry dims.width), some (mkDimEntry dims.height),
     some (mkDimEntry dims.depth)⟩
  let needsWidth := dims.width = none
  let needsHeight := dims.height = none
  let flags := if needsWidth ∨ needsHeight then ["NEEDS_REVIEW"] else []
  { itemId := uuidSeq idx
    category := category
    unitId := ""
    location := ""
    configuration := configuration.getD "unknown"
    templateId := ""
    dimensions := dimEntries
    glassType := glassTypeOf block
    hardware := []
    flags := flags
    notes := ""
    sourcePages := [pageNum]
    quantityPerUnit := 1 }

/-- The per-block body of `_extract_items_from_page`. -/
def blockStep (uuidSeq : ℕ → String) (pageNum : ℕ)
    (acc : List Item × ℕ) (block : String) : List Item × ℕ :=
  match detectCategory block with
  | none => acc
  | some category =>
    (acc.1 ++ [mkBlockItem uuidSeq pageNum acc.2 block category], acc.2 + 1)

/-- `_extract_items_from_page(doc, page_num, text)`: the per-block item
construction.  `uuidSeq i` models the `i`-th `uuid.uuid4()` drawn by this
job (a supply of fresh identifiers); the pair returned is the items plus
the next unused supply index. -/
def extractItemsFromPage (uuidSeq : ℕ → String) (startIdx pageNum : ℕ)
    (text : String) : List Item × ℕ :=
  (blocksOf text).foldl (blockStep uuidSeq pageNum) (([] : List Item), startIdx)

/-- `^\d+[\.\)]\s` of `_extract_assumptions`. -/
def isNumBullet (l : List Char) : Bool :=
  let ds := l.takeWhile Char.isDigit
  decide (1 ≤ ds.length) &&
    (match l.drop ds.length with
     | p :: w :: _ => (p = '.' || p = ')') && pySpace w
     | _ => false)

/-- `re.sub(r"^[-•·\d\.\)]+\s*", "", line)`: strip one leading run of
bullet characters and the following spaces (no match leaves the line
unchanged). -/
def stripBulletPrefix (l : List Char) : List Char :=
  let cls := fun c => c = '-' || c = '•' || c = '·' || c.isDigit || c = '.' || c = ')'
  let rest := l.dropWhile cls
  if rest.length = l.length then l else rest.dropWhile pySpace

/-- `_extract_assumptions(text)` from `worker/src/pipeline/extract.py`:
the running state is `(assumptions, exclusions, in_assumptions,
in_exclusions)`. -/
def extractAssumptions (text : String) : List String × List String :=
  let final := (pySplit text "\n").foldl
    (fun (st : List String × List String × Bool × Bool) line =>
      let ls := pyStrip line
      let ll := pyLower ls
      if strContains ll "assumption" then (st.1, st.2.1, true, false)
      else if strContains ll "exclusion" then (st.1, st.2.1, false, true)
      else if ls ≠ "" ∧ (ls.toList.head? = some '-' ∨ ls.toList.head? = some '•'
          ∨ ls.toList.head? = some '·' ∨ isNumBullet ls.toList) then
        let clean := pyStrip (String.mk (stripBulletPrefix ls.toList))
        if clean ≠ "" then
          if st.2.2.1 then (st.1 ++ [clean], st.2.1, st.2.2)
          else if st.2.2.2 then (st.1, st.2.1 ++ [clean], st.2.2)
          else st
        else st
      else st)
    (([] : List String), ([] : List String), false, false)
  (final.1, final.2.1)

/-- The measurement-task / flag loop of `run_extraction` for one item:
returns the tasks created, the item with `NEEDS_REVIEW` ensured when a
task was created, and the next uuid-supply index. -/
def itemTasks (uuidSeq : ℕ → String) (idx : ℕ) (item : Item) :
    List MTask × Item × ℕ :=
  let pageNum := item.sourcePages.headD 0
  let wNull := item.widthValue = none
  let hNull := item.heightValue = none
  let mk := fun i dimKey =>
    (⟨uuidSeq i, item.itemId, dimKey, "PENDING", pageNum,
      none, none, none, none⟩ : MTask)
  let tasks := (if wNull then [mk idx "width"] else [])
    ++ (if hNull then [mk (idx + (if wNull then 1 else 0)) "height"] else [])
  let item := if wNull ∨ hNull then
      (if item.flags.contains "NEEDS_REVIEW" then item
       else { item with flags := item.flags ++ ["NEEDS_REVIEW"] })
    else item
  (tasks, item, idx + tasks.length)

/-- The accumulator of the page loop in `run_extraction`. -/
structure ExtractAcc where
  items : List Item
  assumptions : List String
  exclusions : List String
  uuidIdx : ℕ
  deriving Repr

/-- One iteration of the relevant-page loop of `run_extraction`. -/
def extractPageStep (doc : List String) (pageIndex : List PageEntry)
    (uuidSeq : ℕ → String) (acc : ExtractAcc) (pageNum : ℕ) : ExtractAcc :=
  match doc.get? pageNum with
  | none => acc   -- `if page_num >= len(doc): continue`
  | some text =>
    let extracted := extractItemsFromPage uuidSeq acc.uuidIdx pageNum text
    let pageInfo := pageIndex.find? (fun p => p.pageNum = pageNum)
    let newAE :=
      if pageInfo.map (·.classification) = some "NOTES" then
        extractAssumptions text
      else ([], [])
    { items := acc.items ++ extracted.1
      assumptions := acc.assumptions ++ newAE.1
      exclusions := acc.exclusions ++ newAE.2
      uuidIdx := extracted.2 }

/-- One iteration of the measurement-task loop of `run_extraction`; the
running state is `(tasks, updated items, uuid index, has_flags)`. -/
def taskFoldStep (uuidSeq : ℕ → String)
    (st : List MTask × List Item × ℕ × Bool) (item : Item) :
    List MTask × List Item × ℕ × Bool :=
  (st.1 ++ (itemTasks uuidSeq st.2.2.1 item).1,
   st.2.1 ++ [(itemTasks uuidSeq st.2.2.1 item).2.1],
   (itemTasks uuidSeq st.2.2.1 item).2.2,
   st.2.2.2 || decide ((itemTasks uuidSeq st.2.2.1 item).1 ≠ []))

/-- The relevant-page selection of `run_extraction` (falls back to all
non-IRRELEVANT pages when routing is empty). -/
def relevantPagesOf (ssot : Ssot) : List ℕ :=
  let pageIndex := ssot.pageIndex.getD []
  let relevantPages : List ℕ := (ssot.routing.map (·.relevantPages)).getD []
  if relevantPages = [] then
    (pageIndex.filter (fun p => p.classification ≠ "IRRELEVANT")).map (·.pageNum)
  else relevantPages

/-- The page loop of `run_extraction`. -/
def extractAccOf (doc : List String) (uuidSeq : ℕ → String) (ssot : Ssot) : ExtractAcc :=
  (relevantPagesOf ssot).foldl
    (extractPageStep doc (ssot.pageIndex.getD []) uuidSeq) ⟨[], [], [], 0⟩

/-- The measurement-task loop of `run_extraction`. -/
def taskFoldOf (uuidSeq : ℕ → String) (acc : ExtractAcc) :
    List MTask × List Item × ℕ × Bool :=
  acc.items.foldl (taskFoldStep uuidSeq)
    (([] : List MTask), ([] : List Item), acc.uuidIdx, false)

/-- `run_extraction(job)` from `worker/src/pipeline/extract.py`.
`doc` is the page-text list of the source PDF (`doc[i]` the text of page
`i`); rows inserted into `measurement_tasks` / `render_requests` are
database side effects outside the job state and are not represented. -/
def runExtraction (doc : List String) (uuidSeq : ℕ → String) (j : JobState) :
    JobState :=
  let j1 := updateJobStatus j "EXTRACTING" none none none false none
  let ssot := j.ssot
  if (ssot.items.getD []) ≠ [] then
    -- idempotency guard: items already present and non-empty
    let items := ssot.items.getD []
    let hasFlags := items.any (fun it => it.flags.contains "NEEDS_REVIEW")
    updateJobStatus j1 (if hasFlags then "NEEDS_REVIEW" else "EXTRACTED")
      (some { StageProgress.base "extracting" with status := some "complete_skipped" })
      none none hasFlags none
  else
    let acc := extractAccOf doc uuidSeq ssot
    -- `list(dict.fromkeys(...))`: first-occurrence de-duplication
    let allAssumptions := dedupFirst acc.assumptions
    let allExclusions := dedupFirst acc.exclusions
    -- measurement tasks and NEEDS_REVIEW flags
    let final := taskFoldOf uuidSeq acc
    let measurementTasks := final.1
    let updatedItems := final.2.1
    let hasFlags := final.2.2.2
    let ssot1 := { ssot with
      items := some updatedItems
      assumptions := some allAssumptions
      exclusions := some allExclusions
      measurementTasks := some measurementTasks }
    updateJobStatus j1 (if hasFlags then "NEEDS_REVIEW" else "EXTRACTED")
      (some { StageProgress.base "extracting" with
              status := some "complete"
              itemsFound := some acc.items.length
              measurementTasks := some measurementTasks.length })
      none none hasFlags (some ssot1)

/-! ### `pipeline/index.py` : INDEXING stage -/

/-- `CLASSIFICATION_KEYWORDS` in dict insertion order. -/
def CLASSIFICATION_KEYWORDS : List (String × List String) :=
  [("FLOOR_PLAN", ["floor plan", "plan view", "layout", "unit plan",
                   "reflected ceiling", "furniture plan"]),
   ("ELEVATION", ["elevation", "interior elevation", "wall elevation",
                  "section", "detail elevation"]),
   ("SCHEDULE", ["schedule", "door schedule", "window schedule",
                 "finish schedule", "hardware schedule", "fixture schedule"]),
   ("DETAIL", ["detail", "enlarged", "section detail", "typical detail",
               "shower detail", "glass detail", "mirror detail"]),
   ("NOTES", ["general notes", "specifications", "notes", "abbreviations",
              "symbols", "legend", "assumptions", "exclusions"]),
   ("TITLE", ["title sheet", "cover sheet", "cover page", "index",
              "sheet index", "drawing index"])]

/-- `RELEVANCE_KEYWORDS` in dict insertion order. -/
def RELEVANCE_KEYWORDS : List (String × List String) :=
  [("showers", ["shower", "enclosure", "frameless", "glass panel",
                "shower door", "shower screen", "steam shower"]),
   ("mirrors", ["mirror", "vanity mirror", "bathroom mirror"]),
   ("assumptions", ["assumption", "exclusion", "general note", "note",
                    "specification", "scope"])]

/-- The per-class score of `classify_page`: `score += 1.0/len(keywords)`
for each keyword contained in the lowercased text. -/
def classScore (tl : String) (keywords : List String) : ℚ :=
  keywords.foldl
    (fun s kw => if strContains tl kw then s + 1 / (keywords.length : ℚ) else s) 0

/-- `classify_page(text, page_num, total_pages)` from
`worker/src/pipeline/index.py`: `(classification, confidence)`. -/
def classifyPage (text : String) (pageNum : ℕ) (_totalPages : ℕ) : String × ℚ :=
  let tl := pyLower text
  if pageNum ≤ 1 ∧
      ((CLASSIFICATION_KEYWORDS.lookup "TITLE").getD []).any (fun kw => strContains tl kw)
  then ("TITLE", 85/100)
  else
    let best := CLASSIFICATION_KEYWORDS.foldl
      (fun (best : String × ℚ) ck =>
        let score := classScore tl ck.2
        if best.2 < score then (ck.1, score) else best)
      ("IRRELEVANT", 0)
    if best.2 < 1/10 then ("IRRELEVANT", 3/10)
    else (best.1, round2 (min (95/100) (4/10 + best.2 * (6/10))))

/-- `detect_relevance(text)`: the relevance categories whose keyword list
hits the lowercased text, in dict order. -/
def detectRelevance (text : String) : List String :=
  let tl := pyLower text
  RELEVANCE_KEYWORDS.foldl
    (fun acc ck => if ck.2.any (fun kw => strContains tl kw) then acc ++ [ck.1] else acc) []

/-- `run_indexing(job)` from `worker/src/pipeline/index.py`; `doc` is the
page-text list of the downloaded PDF. -/
def runIndexing (doc : List String) (j : JobState) : JobState :=
  let j1 := updateJobStatus j "INDEXING" none none none false none
  let ssot := j.ssot
  let existingIndex := ssot.pageIndex.getD []
  if existingIndex ≠ [] then
    -- idempotency guard: pageIndex already populated
    updateJobStatus j1 "INDEXED"
      (some { StageProgress.base "indexing" with status := some "complete_skipped" })
      none none false none
  else
    let totalPages := doc.length
    let metadata := ssot.metadata.getD ⟨none⟩
    let ssot := { ssot with metadata := some { metadata with pageCount := some totalPages } }
    let pageIndex := (List.range totalPages).map (fun pageNum =>
      let text := doc.getD pageNum ""
      let cc := classifyPage text pageNum totalPages
      (⟨pageNum, cc.1, cc.2, detectRelevance text⟩ : PageEntry))
    let ssot1 := { ssot with pageIndex := some pageIndex }
    updateJobStatus j1 "INDEXED"
      (some { StageProgress.base "indexing" with
              status := some "complete", totalPages := some pageIndex.length })
      none none false (some ssot1)

/-! ### `pipeline/route.py` : ROUTING stage -/

def RELEVANT_CLASSIFICATIONS : List String :=
  ["SCHEDULE", "DETAIL", "NOTES", "ELEVATION"]

/-- The `is_relevant` disjunction of `run_routing` for one page (the
FLOOR_PLAN clause is the third `if` of the source). -/
def pageIsRelevant (page : PageEntry) : Bool :=
  RELEVANT_CLASSIFICATIONS.contains page.classification
    || page.relevantTo ≠ []
    || (page.classification = "FLOOR_PLAN" && page.relevantTo ≠ [])

/-- `run_routing(job)` from `worker/src/pipeline/route.py`; the eager
THUMB render-request inserts (`ON CONFLICT DO NOTHING`) are database side
effects outside the job state and are not represented. -/
def runRouting (j : JobState) : JobState :=
  let j1 := updateJobStatus j "ROUTING" none none none false none
  let ssot := j.ssot
  let pageIndex := ssot.pageIndex.getD []
  if pageIndex = [] then
    updateJobStatus j1 "ROUTED"
      (some { StageProgress.base "routing" with
              status := some "complete", relevantPages := some 0 })
      none none false (some ssot)
  else
    let relevantPages := (pageIndex.filter pageIsRelevant).map (·.pageNum)
    let ssot1 := { ssot with routing := some ⟨relevantPages, pageIndex.length⟩ }
    updateJobStatus j1 "ROUTED"
      (some { StageProgress.base "routing" with
              status := some "complete", relevantPages := some relevantPages.length })
      none none false (some ssot1)

/-! ### Auxiliary definitions for the stage no-op analysis (C5) -/

/-- The per-item `NEEDS_REVIEW` invariant maintained by the extraction
loops: the flag is present exactly when a dimension value is missing. -/
def itemPred (x : Item) : Prop :=
  x.flags.contains "NEEDS_REVIEW"
    = decide (x.widthValue = none ∨ x.heightValue = none)

/-- The number of category-detected blocks on page `p` of `doc`. -/
def catBlocks (text : String) : ℕ :=
  ((blocksOf text).filter (fun b => (detectCategory b).isSome)).length

def pageK (doc : List String) (p : ℕ) : ℕ :=
  match doc.get? p with
  | none => 0
  | some text => catBlocks text

/-- The assumptions contributed by page `p` (nonempty only on NOTES pages). -/
def pageA (doc : List String) (pi : List PageEntry) (p : ℕ) : List String :=
  match doc.get? p with
  | none => []
  | some text =>
    if (pi.find? (fun q => q.pageNum = p)).map (·.classification) = some "NOTES" then
      (extractAssumptions text).1
    else []

/-- The exclusions contributed by page `p` (nonempty only on NOTES pages). -/
def pageE (doc : List String) (pi : List PageEntry) (p : ℕ) : List String :=
  match doc.get? p with
  | none => []
  | some text =>
    if (pi.find? (fun q => q.pageNum = p)).map (·.classification) = some "NOTES" then
      (extractAssumptions text).2
    else []

/-!
## Theorems
-/

/-- **C9** — For every page size `(width_pt, height_pt)` and requested DPI
`d`, the effective DPI is `d′ = min(d, MAX_DPI)`; whenever
`max(width, height)/72 × d′` exceeds `MAX_PIXELS`, `d′` is scaled down
with integer truncation so that the longest edge is at most `MAX_PIXELS`;
the result is never below 36; and a 3000 pt × 100 pt page at requested
DPI 400 yields effective DPI 192 (defaults `MAX_DPI = 400`,
`MAX_PIXELS = 8000`). -/
theorem claim_C9_dpi_clamp (w h : ℚ) (d : ℤ) (hw : 0 < w) (_hh : 0 < h) (hd : 0 ≤ d) :
    (36 ≤ clampDpi w h d)
    ∧ (max w h / 72 * ((min d MAX_RENDER_DPI : ℤ) : ℚ) ≤ (MAX_RENDER_PIXELS : ℚ) →
        clampDpi w h d = max (min d MAX_RENDER_DPI) 36)
    ∧ ((MAX_RENDER_PIXELS : ℚ) < max w h / 72 * ((min d MAX_RENDER_DPI : ℤ) : ℚ) →
        clampDpi w h d =
          max (pyInt (((min d MAX_RENDER_DPI : ℤ) : ℚ) *
            ((MAX_RENDER_PIXELS : ℚ) / (max w h / 72 * ((min d MAX_RENDER_DPI : ℤ) : ℚ))))) 36
        ∧ (36 ≤ pyInt (((min d MAX_RENDER_DPI : ℤ) : ℚ) *
              ((MAX_RENDER_PIXELS : ℚ) / (max w h / 72 * ((min d MAX_RENDER_DPI : ℤ) : ℚ)))) →
            max w h / 72 * ((clampDpi w h d : ℤ) : ℚ) ≤ (MAX_RENDER_PIXELS : ℚ)))
    ∧ clampDpi 3000 100 400 = 192 := by
  have hd1 : (0 : ℤ) ≤ min d MAX_RENDER_DPI := by
    simp only [MAX_RENDER_DPI]
    omega
  have hkey : max (w / 72 * ((min d MAX_RENDER_DPI : ℤ) : ℚ)) (h / 72 * ((min d MAX_RENDER_DPI : ℤ) : ℚ))
      = max w h / 72 * ((min d MAX_RENDER_DPI : ℤ) : ℚ) := by
    have hc : (0 : ℚ) ≤ ((min d MAX_RENDER_DPI : ℤ) : ℚ) := by exact_mod_cast hd1
    have knn : (0 : ℚ) ≤ ((min d MAX_RENDER_DPI : ℤ) : ℚ) / 72 := by positivity
    have e1 : w / 72 * ((min d MAX_RENDER_DPI : ℤ) : ℚ) = w * (((min d MAX_RENDER_DPI : ℤ) : ℚ) / 72) := by ring
    have e2 : h / 72 * ((min d MAX_RENDER_DPI : ℤ) : ℚ) = h * (((min d MAX_RENDER_DPI : ℤ) : ℚ) / 72) := by ring
    rw [e1, e2, ← max_mul_of_nonneg _ _ knn]
    ring
  constructor
  · unfold clampDpi
    simp only [le_max_iff]
    right
    rfl
  refine ⟨?_, ?_, ?_⟩
  · intro hfit
    unfold clampDpi
    simp only [hkey]
    rw [if_neg (not_lt.mpr hfit)]
  · intro hbig
    have hres : clampDpi w h d =
        max (pyInt (((min d MAX_RENDER_DPI : ℤ) : ℚ) *
          ((MAX_RENDER_PIXELS : ℚ) / (max w h / 72 * ((min d MAX_RENDER_DPI : ℤ) : ℚ))))) 36 := by
      unfold clampDpi
      simp only [hkey]
      rw [if_pos hbig]
    refine ⟨hres, ?_⟩
    intro h36
    rw [hres, max_eq_left h36]
    -- the truncated dpi keeps the longest edge within the pixel bound
    set L : ℚ := max w h / 72 * ((min d MAX_RENDER_DPI : ℤ) : ℚ) with hL
    have hLpos : 0 < L := lt_trans (by norm_num [MAX_RENDER_PIXELS]) hbig
    set x : ℚ := ((min d MAX_RENDER_DPI : ℤ) : ℚ) * ((MAX_RENDER_PIXELS : ℚ) / L) with hx
    have hxnn : 0 ≤ x := by
      apply mul_nonneg
      · exact_mod_cast hd1
      · exact div_nonneg (by norm_num [MAX_RENDER_PIXELS]) (le_of_lt hLpos)
    have hfl : (pyInt x : ℚ) ≤ x := by
      simp only [pyInt, if_pos hxnn]
      exact Int.floor_le x
    have hmw : 0 < max w h := lt_max_of_lt_left hw
    have hLval : max w h / 72 * x = (MAX_RENDER_PIXELS : ℚ) := by
      have hLne : L ≠ 0 := ne_of_gt hLpos
      have hstep : max w h / 72 * x = L * ((MAX_RENDER_PIXELS : ℚ) / L) := by
        rw [hx, hL]
        ring
      rw [hstep, mul_comm, div_mul_cancel₀ _ hLne]
    calc max w h / 72 * ((pyInt x : ℤ) : ℚ)
        ≤ max w h / 72 * x := by
          apply mul_le_mul_of_nonneg_left hfl
          positivity
      _ = (MAX_RENDER_PIXELS : ℚ) := hLval
  · norm_num [clampDpi, pyInt, MAX_RENDER_PIXELS, MAX_RENDER_DPI]

/-- **C9 witness** — the clamp theorem instantiated at the 3000 pt × 100 pt
page with requested DPI 400. -/
theorem claim_C9_witness :
    (0 : ℚ) < 3000 ∧ (0 : ℚ) < 100 ∧ (0 : ℤ) ≤ 400 ∧ clampDpi 3000 100 400 = 192 :=
  ⟨by norm_num, by norm_num, by norm_num,
    (claim_C9_dpi_clamp 3000 100 400 (by norm_num) (by norm_num) (by norm_num)).2.2.2⟩

/-- The Scenario-5 render queue: a PENDING THUMB created 5 minutes
(300 seconds) before a PENDING MEASURE on a distinct page. -/
def c1ThumbRow : RenderRequest := ⟨"thumb-1", "job-1", 1, "THUMB", 72, "PENDING", 0⟩

def c1MeasureRow : RenderRequest := ⟨"measure-1", "job-1", 2, "MEASURE", 200, "PENDING", 300⟩

/-- **C1** (evaluation at the failing input) — with an older PENDING THUMB
and a newer PENDING MEASURE both in the table, `claim_render_request`
returns the THUMB: the query orders by `created_at` alone and has no
MEASURE-first tie-breaker, contradicting the spec and the repository's own
test `test_measure_prioritized_over_thumb`. -/
theorem claim_C1_code_behavior :
    claimRenderRequest [c1ThumbRow, c1MeasureRow] = some c1ThumbRow
    ∧ c1ThumbRow.kind = "THUMB"
    ∧ c1MeasureRow.kind = "MEASURE"
    ∧ c1ThumbRow.createdAt < c1MeasureRow.createdAt
    ∧ c1ThumbRow.status = "PENDING" ∧ c1MeasureRow.status = "PENDING" := by
  refine ⟨?_, rfl, rfl, by decide, rfl, rfl⟩
  decide

/-- `eligible` is false within the 10-minute horizon of a held lock. -/
theorem eligible_locked_false (j : JobRow) (t0 t : ℤ)
    (h1 : j.lockedAt = some t0) (h2 : t < t0 + 600) : eligible t j = false := by
  unfold eligible
  rw [h1]
  have hno : ¬ (t0 < t - 600) := by omega
  simp [hno]

theorem oldestBy_mem {l : List JobRow} {r : JobRow} (h : oldestBy l = some r) : r ∈ l := by
  induction l with
  | nil => simp [oldestBy] at h
  | cons a t ih =>
    unfold oldestBy at h
    cases ht : oldestBy t with
    | none =>
      rw [ht] at h
      simp at h
      simp [h]
    | some b =>
      rw [ht] at h
      by_cases hb : b.createdAt < a.createdAt
      · simp only [hb, if_true] at h
        simp at h
        subst h
        right
        exact ih ht
      · simp only [hb, if_false] at h
        simp at h
        simp [h]

/-- A claim against a single job locked within the horizon returns `None`
and leaves the table unchanged. -/
theorem claimMainJob_locked_noop (t : ℤ) (w : String) (j1 : JobRow) (t0 : ℤ)
    (h1 : j1.lockedAt = some t0) (h2 : t < t0 + 600) :
    claimMainJob t w [j1] = (none, [j1]) := by
  unfold claimMainJob
  rw [show List.filter (eligible t) [j1] = [] by
    simp [List.filter, eligible_locked_false j1 t0 t h1 h2]]
  rfl

/-- **C2** — (a) with a single eligible, unlocked job and `N` claims
serialized by the database (each claim is one `FOR UPDATE SKIP LOCKED`
transaction) at nondecreasing times all within the 10-minute lock horizon
of the first, the first invocation returns the job (locking it for the
claiming worker) and the other `N − 1` return `None`; (b) a successful
claim sees `locked_at` either empty or strictly older than the horizon, so
two workers can never hold the same job within the horizon
simultaneously. -/
theorem claim_C2_claim_contention :
    (∀ (j0 : JobRow) (t0 : ℤ) (w0 : String) (invs : List (ℤ × String)),
      eligible t0 j0 = true →
      (∀ p ∈ invs, t0 ≤ p.1 ∧ p.1 < t0 + 600) →
      (runClaims ((t0, w0) :: invs) [j0]).1 = some j0 :: invs.map (fun _ => none)
        ∧ (runClaims ((t0, w0) :: invs) [j0]).2
            = [{ j0 with lockedAt := some t0, lockedBy := some w0 }])
    ∧ (∀ (now : ℤ) (wid : String) (table table1 : List JobRow) (r : JobRow),
      claimMainJob now wid table = (some r, table1) →
      r.lockedAt = none ∨ ∃ s, r.lockedAt = some s ∧ s < now - 600) := by
  constructor
  · intro j0 t0 w0 invs helig hwin
    have hstep : claimMainJob t0 w0 [j0] =
        (some j0, [{ j0 with lockedAt := some t0, lockedBy := some w0 }]) := by
      unfold claimMainJob
      rw [show List.filter (eligible t0) [j0] = [j0] by simp [List.filter, helig]]
      simp [oldestBy]
    have hrest : ∀ (l : List (ℤ × String)),
        (∀ p ∈ l, t0 ≤ p.1 ∧ p.1 < t0 + 600) →
        runClaims l [{ j0 with lockedAt := some t0, lockedBy := some w0 }]
          = (l.map (fun _ => none),
             [{ j0 with lockedAt := some t0, lockedBy := some w0 }]) := by
      intro l
      induction l with
      | nil => intro _; rfl
      | cons p t ih =>
        intro hl
        have hp := hl p (List.mem_cons_self p t)
        have hclaim := claimMainJob_locked_noop p.1 p.2
          { j0 with lockedAt := some t0, lockedBy := some w0 } t0 rfl hp.2
        unfold runClaims
        rw [hclaim]
        simp only [List.map_cons]
        rw [ih (fun q hq => hl q (List.mem_cons_of_mem p hq))]
    constructor
    · unfold runClaims
      rw [hstep]
      simp only [List.map]
      rw [hrest invs hwin]
    · unfold runClaims
      rw [hstep]
      simp only
      rw [hrest invs hwin]
  · intro now wid table table1 r h
    unfold claimMainJob at h
    cases hc : oldestBy (table.filter (eligible now)) with
    | none =>
      rw [hc] at h
      simp at h
    | some row =>
      rw [hc] at h
      simp at h
      have hmem := oldestBy_mem hc
      have helig : eligible now r = true := by
        have hmem2 := (List.mem_filter.mp hmem).2
        rw [h.1] at hmem2
        exact hmem2
      unfold eligible at helig
      cases hla : r.lockedAt with
      | none => exact Or.inl rfl
      | some s =>
        rw [hla] at helig
        simp at helig
        exact Or.inr ⟨s, rfl, helig.1.2⟩

/-- The Scenario-1 contention setup: one UPLOADED job, ten workers. -/
def c2Job : JobRow := ⟨"job-1", "UPLOADED", none, none, none, 0⟩

def c2Rest : List (ℤ × String) :=
  [(1001, "w2"), (1002, "w3"), (1003, "w4"), (1004, "w5"), (1005, "w6"),
   (1006, "w7"), (1007, "w8"), (1008, "w9"), (1009, "w10")]

/-- **C2 witness** — ten serialized claims of the single UPLOADED job:
the first returns the job, the other nine return `None`. -/
theorem claim_C2_witness :
    eligible 1000 c2Job = true
    ∧ (runClaims ((1000, "w1") :: c2Rest) [c2Job]).1
        = some c2Job :: c2Rest.map (fun _ => none) :=
  ⟨by decide,
   ((claim_C2_claim_contention.1 c2Job 1000 "w1" c2Rest (by decide) (by decide)).1)⟩

/-- The `[30, 120, 600]` backoff schedule clamped to its last element. -/
def specBackoff (r : ℕ) : ℤ := if r = 0 then 30 else if r = 1 then 120 else 600

/-- A PRICING job that has exhausted its retries. -/
def c8Job : JobState :=
  { status := "PRICING", ssot := Ssot.empty, stageProgress := none,
    errorCode := none, errorMessage := none, lockedAt := some 50,
    lockedBy := some "w", nextRunAt := none, retryCount := 3, maxRetries := 3 }

/-- **C8 counterexample** — on retry exhaustion with exception class
`ValueError`, the code sets `error_code = "VALUEERROR"`
(`type(e).__name__.upper()`), not the exception's class name
`"ValueError"` as claimed. -/
theorem claim_C8_counterexample :
    (processMainJobOnException c8Job 1000 "ValueError" "boom").errorCode = some "VALUEERROR"
    ∧ (some "VALUEERROR" : Option String) ≠ some "ValueError"
    ∧ c8Job.retryCount = 3 ∧ c8Job.maxRetries = 3 := by decide

/-- **C8 (amended)** — when a stage raises: if `retry_count < max_retries`
the job is retried with backoff `[30, 120, 600]` clamped to the last
element (atomically incrementing `retry_count`, setting
`next_run_at = now + backoff` and clearing the lock); otherwise the job is
marked FAILED with `error_code` equal to the **uppercased** exception
class name, the message stored, and the lock cleared. -/
theorem claim_C8_retry_policy (j : JobState) (now : ℤ) (cls msg : String) :
    (j.retryCount < j.maxRetries →
      processMainJobOnException j now cls msg =
        { j with retryCount := j.retryCount + 1,
                 nextRunAt := some (now + specBackoff j.retryCount),
                 lockedAt := none, lockedBy := none })
    ∧ (j.maxRetries ≤ j.retryCount →
      processMainJobOnException j now cls msg =
        { j with status := "FAILED", errorMessage := some msg,
                 errorCode := some (pyUpper cls), lockedAt := none, lockedBy := none }) := by
  constructor
  · intro hlt
    unfold processMainJobOnException
    rw [if_pos hlt]
    have hb : (BACKOFF_SECONDS.getD (min j.retryCount (BACKOFF_SECONDS.length - 1)) 0)
        = specBackoff j.retryCount := by
      unfold BACKOFF_SECONDS specBackoff
      match j.retryCount with
      | 0 => rfl
      | 1 => rfl
      | (n+2) => simp [List.getD]
    rw [hb]
    rfl
  · intro hge
    unfold processMainJobOnException
    rw [if_neg (by omega)]
    rfl

/-- A job with retries remaining. -/
def c8JobFresh : JobState :=
  { status := "INDEXING", ssot := Ssot.empty, stageProgress := none,
    errorCode := none, errorMessage := none, lockedAt := some 50,
    lockedBy := some "w", nextRunAt := none, retryCount := 0, maxRetries := 3 }

/-- **C8 witness** — the first retry of a failing job backs off 30 seconds,
increments the counter, and clears the lock. -/
theorem claim_C8_witness :
    c8JobFresh.retryCount < c8JobFresh.maxRetries
    ∧ processMainJobOnException c8JobFresh 1000 "RuntimeError" "x" =
        { c8JobFresh with retryCount := 1, nextRunAt := some 1030,
                          lockedAt := none, lockedBy := none } := by
  refine ⟨by decide, ?_⟩
  have h := (claim_C8_retry_policy c8JobFresh 1000 "RuntimeError" "x").1 (by decide)
  rw [h]
  rfl

/-- **C10** — the dimension parsers are total (every input yields a value
or `None`); a whole-plus-fraction match with zero denominator is rejected
by the explicit guard; `'36 1/0'` and unparseable text yield `None` from
both parsers. -/
theorem claim_C10_parsers_total :
    (∀ s, parseInches s = none ∨ ∃ q, parseInches s = some q)
    ∧ (∀ s, parseDimensionInches s = none ∨ ∃ q, parseDimensionInches s = some q)
    ∧ (∀ s whole num, rxMatch wholeFracPat (pyStrip s) = some (whole, num, 0) →
        parseInches s = none)
    ∧ parseInches "36 1/0" = none
    ∧ parseDimensionInches "36 1/0" = none
    ∧ parseDimensionInches "not a dimension" = none := by
  refine ⟨?_, ?_, ?_, by decide, by decide, by decide⟩
  · intro s
    cases h : parseInches s with
    | none => exact Or.inl rfl
    | some q => exact Or.inr ⟨q, rfl⟩
  · intro s
    cases h : parseDimensionInches s with
    | none => exact Or.inl rfl
    | some q => exact Or.inr ⟨q, rfl⟩
  · intro s whole num h
    unfold parseInches
    by_cases he : pyStrip s = ""
    · rw [if_pos he]
    · rw [if_neg he, h]
      simp

/-- **C10 witness** — the zero-denominator guard applied at `"36 1/0"`. -/
theorem claim_C10_witness :
    rxMatch wholeFracPat (pyStrip "36 1/0") = some (36, 1, 0)
    ∧ parseInches "36 1/0" = none :=
  ⟨by decide, claim_C10_parsers_total.2.2.1 "36 1/0" 36 1 (by decide)⟩

/-- `sum(li.get("totalPrice", 0) for li in lineItems)` of the validation
gate. -/
def computedSubtotal (ssot : Ssot) : ℚ :=
  (((ssot.pricing.map (·.lineItems)).getD []).map (fun li => li.totalPrice.getD 0)).sum

/-- `pricing.get("subtotal", 0)` of the validation gate. -/
def declaredSubtotal (ssot : Ssot) : ℚ := (ssot.pricing.bind (·.subtotal)).getD 0

/-- A math mismatch beyond the $0.01 tolerance puts `MATH_ERROR` at the
head of the validation-error list. -/
theorem validate_math_cons (ssot : Ssot)
    (hmath : 1/100 < |computedSubtotal ssot - declaredSubtotal ssot|) :
    ∃ msg rest, validateSsotForGeneration ssot = ⟨"MATH_ERROR", msg, none⟩ :: rest := by
  unfold computedSubtotal declaredSubtotal at hmath
  unfold validateSsotForGeneration
  simp only [if_pos hmath]
  exact ⟨_, _, rfl⟩

/-- The blocked branch of `run_generation`: with a non-empty blocking
error list the job reverts to PRICED with `error_code=VALIDATION_ERROR`,
the structured errors in `stage_progress`, and the SSOT untouched. -/
theorem runGeneration_blocked (env : GenEnv) (pid jid : String) (j : JobState)
    (hb : (validateSsotForGeneration j.ssot).filter isBlocking ≠ []) :
    (runGeneration env pid jid j).status = "PRICED"
    ∧ (runGeneration env pid jid j).errorCode = some "VALIDATION_ERROR"
    ∧ (runGeneration env pid jid j).stageProgress =
        some { StageProgress.base "generating" with
               status := some "validation_failed",
               errors := (validateSsotForGeneration j.ssot).filter isBlocking }
    ∧ (runGeneration env pid jid j).ssot = j.ssot := by
  unfold runGeneration
  simp only [if_pos hb]
  exact ⟨rfl, rfl, rfl, rfl⟩

/-- **C3** — for any SSOT whose line-item totals differ from the declared
subtotal by more than 0.01, the GENERATING stage leaves the job at PRICED
with `error_code = VALIDATION_ERROR`, a `MATH_ERROR` entry in
`stage_progress.errors`, and the SSOT (in particular `ssot.outputs`)
unchanged — no BID_PDF is generated. -/
theorem claim_C3_validation_gate (env : GenEnv) (pid jid : String) (j : JobState)
    (hmath : 1/100 < |computedSubtotal j.ssot - declaredSubtotal j.ssot|) :
    (runGeneration env pid jid j).status = "PRICED"
    ∧ (runGeneration env pid jid j).errorCode = some "VALIDATION_ERROR"
    ∧ (∃ sp, (runGeneration env pid jid j).stageProgress = some sp
        ∧ ∃ e ∈ sp.errors, e.code = "MATH_ERROR")
    ∧ (runGeneration env pid jid j).ssot = j.ssot := by
  obtain ⟨msg, rest, hval⟩ := validate_math_cons j.ssot hmath
  have hbm : isBlocking ⟨"MATH_ERROR", msg, none⟩ = true := by
    show (decide ¬(strContains "MATH_ERROR" "WARNING" = true)) = true
    decide
  have hblock : (validateSsotForGeneration j.ssot).filter isBlocking
      = ⟨"MATH_ERROR", msg, none⟩ :: rest.filter isBlocking := by
    rw [hval, List.filter_cons_of_pos hbm]
  have hb : (validateSsotForGeneration j.ssot).filter isBlocking ≠ [] := by
    rw [hblock]
    exact List.cons_ne_nil _ _
  obtain ⟨h1, h2, h3, h4⟩ := runGeneration_blocked env pid jid j hb
  refine ⟨h1, h2, ⟨_, h3, ⟨"MATH_ERROR", msg, none⟩, ?_, rfl⟩, h4⟩
  simp only [hblock]
  exact List.mem_cons_self _ _

/-- The Scenario-4 pricing slice: one line item of 104 800 against a
declared subtotal of 99 999.99. -/
def c3Line : LineItem := ⟨"i1", "", none, 1, some 104800, none, false, none⟩

def c3Job : JobState :=
  { status := "PRICED",
    ssot := { Ssot.empty with
              pricing := some ⟨none, none, [], [c3Line], some (9999999/100), some 0,
                               some (9999999/100)⟩ },
    stageProgress := none, errorCode := none, errorMessage := none,
    lockedAt := some 10, lockedBy := some "w", nextRunAt := none,
    retryCount := 0, maxRetries := 3 }

def c3Env : GenEnv := ⟨⟨"out-1", "sha-1", "2026-01-01T00:00:00"⟩, none⟩

/-- **C3 witness** — the gate theorem at the Scenario-4 mutated SSOT. -/
theorem claim_C3_witness :
    (1/100 < |computedSubtotal c3Job.ssot - declaredSubtotal c3Job.ssot|)
    ∧ (runGeneration c3Env "p" "j" c3Job).status = "PRICED"
    ∧ (runGeneration c3Env "p" "j" c3Job).ssot = c3Job.ssot := by
  have hm : (1:ℚ)/100 < |computedSubtotal c3Job.ssot - declaredSubtotal c3Job.ssot| := by
    norm_num [computedSubtotal, declaredSubtotal, c3Job, c3Line, Ssot.empty,
      abs_of_nonneg]
  have h := claim_C3_validation_gate c3Env "p" "j" c3Job hm
  exact ⟨hm, h.1, h.2.2.2⟩

/-- **C6** — an existing line item with `manualOverride = true` for an
item present in `ssot.items` is copied verbatim into the new `lineItems`
(formula evaluation skipped) and its `totalPrice` is the item's
contribution to the computed subtotal. -/
theorem claim_C6_manual_override (pb : Option Pricebook) (rules : List Rule)
    (j : JobState) (its : List Item) (item : Item) (L : LineItem)
    (hits : j.ssot.items = some its)
    (hmem : item ∈ its)
    (hfind : findOverride ((j.ssot.pricing.map (·.lineItems)).getD []) item.itemId = some L) :
    ((runPricing pb rules j).ssot.pricing.map (·.lineItems)).getD []
      = its.map (fun i => (priceLine ((j.ssot.pricing.map (·.lineItems)).getD []) rules i).1)
    ∧ (priceLine ((j.ssot.pricing.map (·.lineItems)).getD []) rules item).1 = L
    ∧ (priceLine ((j.ssot.pricing.map (·.lineItems)).getD []) rules item).2 = L.totalPrice.getD 0
    ∧ L ∈ ((runPricing pb rules j).ssot.pricing.map (·.lineItems)).getD []
    ∧ ((runPricing pb rules j).ssot.pricing.bind (·.subtotal))
        = some (round2 ((its.map
            (fun i => (priceLine ((j.ssot.pricing.map (·.lineItems)).getD []) rules i).2)).sum)) := by
  have hpl : (priceLine ((j.ssot.pricing.map (·.lineItems)).getD []) rules item).1 = L := by
    unfold priceLine
    rw [hfind]
  have hpl2 : (priceLine ((j.ssot.pricing.map (·.lineItems)).getD []) rules item).2
      = L.totalPrice.getD 0 := by
    unfold priceLine
    rw [hfind]
  have hline : ((runPricing pb rules j).ssot.pricing.map (·.lineItems)).getD []
      = its.map (fun i => (priceLine ((j.ssot.pricing.map (·.lineItems)).getD []) rules i).1) := by
    unfold runPricing updateJobStatus
    simp only [hits, Option.getD_some, Option.map_some, List.map_map]
    rfl
  refine ⟨hline, hpl, hpl2, ?_, ?_⟩
  · rw [hline]
    exact List.mem_map.mpr ⟨item, hmem, hpl⟩
  · unfold runPricing updateJobStatus
    simp only [hits, Option.getD_some, Option.map_some, List.map_map]
    rfl

/-- The Scenario-3 item and override line: `{itemId: i1, totalPrice: 999,
manualOverride: true}`. -/
def c6Item : Item :=
  ⟨"i1", "SHOWER_ENCLOSURE", "", "", "inline-panel", "",
   ⟨some ⟨some 36, "in", "DIMENSION_CALLOUT", 7/10⟩,
    some ⟨some 72, "in", "DIMENSION_CALLOUT", 7/10⟩,
    some ⟨none, "in", "FIELD_VERIFY", 0⟩⟩,
   "3/8 clear tempered", [], [], "", [0], 1⟩

def c6Line : LineItem := ⟨"i1", "manual", some 999, 1, some 999, none, true, some "ops"⟩

def c6Job : JobState :=
  { status := "REVIEWED",
    ssot := { Ssot.empty with
              items := some [c6Item],
              pricing := some ⟨none, none, [], [c6Line], some 999, some 0, some 999⟩ },
    stageProgress := none, errorCode := none, errorMessage := none,
    lockedAt := some 10, lockedBy := some "w", nextRunAt := none,
    retryCount := 0, maxRetries := 3 }

/-- **C6 witness** — Scenario 3: after PRICING, the override line is the
byte-identical sole line item and the subtotal is exactly 999.00. -/
theorem claim_C6_witness :
    findOverride ((c6Job.ssot.pricing.map (·.lineItems)).getD []) c6Item.itemId = some c6Line
    ∧ ((runPricing none [] c6Job).ssot.pricing.map (·.lineItems)).getD [] = [c6Line]
    ∧ ((runPricing none [] c6Job).ssot.pricing.bind (·.subtotal)) = some 999 := by
  have h := claim_C6_manual_override none [] c6Job [c6Item] c6Item c6Line rfl
    (List.mem_singleton.mpr rfl) rfl
  refine ⟨rfl, ?_, ?_⟩
  · rw [h.1]
    simp only [List.map_cons, List.map_nil]
    rw [h.2.1]
  · rw [h.2.2.2.2]
    simp only [List.map_cons, List.map_nil, List.sum_cons, List.sum_nil]
    rw [h.2.2.1]
    norm_num [c6Line, round2, roundHalfEven]

/-- The code's version fold equals "one plus the maximum existing version
of that type (missing versions read as 0), or one when none exists". -/
theorem versionFold_char (t : String) (l : List OutputEntry) :
    versionFold l t
      = 1 + ((l.filter (fun o => o.otype = some t)).map
          (fun o => o.version.getD 0)).foldl max 0 := by
  suffices h : ∀ a : ℤ,
      l.foldl (fun acc o => if o.otype = some t then max acc (o.version.getD 0 + 1) else acc) a
        = 1 + ((l.filter (fun o => o.otype = some t)).map
            (fun o => o.version.getD 0)).foldl max (a - 1) by
    have := h 1
    simpa [versionFold] using this
  induction l with
  | nil => intro a; simp
  | cons o rest ih =>
    intro a
    by_cases hp : o.otype = some t
    · simp only [List.foldl_cons, List.filter_cons, hp, decide_eq_true_eq, if_true,
        List.map_cons]
      rw [ih (max a (o.version.getD 0 + 1))]
      congr 1
      have : max a (o.version.getD 0 + 1) - 1 = max (a - 1) (o.version.getD 0) := by
        omega
      rw [this]
    · simp only [List.foldl_cons, List.filter_cons, hp, if_false,
        decide_eq_true_eq]
      exact ih a

/-- The success branch of `run_generation`: status DONE and the exact
shape of the new `ssot.outputs` (prior BID_PDF / SHOP_DRAWINGS_PDF rows
are dropped by the filter; a fresh BID_PDF — and SHOP_DRAWINGS_PDF when
shop generation succeeds — is appended). -/
theorem runGeneration_success (env : GenEnv) (pid jid : String) (j : JobState)
    (hval : (validateSsotForGeneration j.ssot).filter isBlocking = []) :
    (runGeneration env pid jid j).status = "DONE"
    ∧ (runGeneration env pid jid j).ssot.outputs = some (
        ((j.ssot.outputs.getD []).filter
          (fun o => ¬ (o.otype = some "BID_PDF" ∨ o.otype = some "SHOP_DRAWINGS_PDF")))
        ++ [⟨env.bid.outputId, some "BID_PDF",
             some (versionFold (j.ssot.outputs.getD []) "BID_PDF"), BUCKET_OUTPUTS,
             pid ++ "/" ++ jid ++ "/bid-v"
               ++ toString (versionFold (j.ssot.outputs.getD []) "BID_PDF") ++ ".pdf",
             env.bid.generatedAt, env.bid.sha256⟩]
        ++ (env.shopResult.map (fun s =>
             (⟨s.outputId, some "SHOP_DRAWINGS_PDF",
               some (versionFold (j.ssot.outputs.getD []) "SHOP_DRAWINGS_PDF"), BUCKET_OUTPUTS,
               pid ++ "/" ++ jid ++ "/shop-drawings-v"
                 ++ toString (versionFold (j.ssot.outputs.getD []) "SHOP_DRAWINGS_PDF") ++ ".pdf",
               s.generatedAt, s.sha256⟩ : OutputEntry))).toList) := by
  have hb : ¬ ((validateSsotForGeneration j.ssot).filter isBlocking ≠ []) := by
    rw [hval]
    simp
  constructor
  · unfold runGeneration
    simp only [if_neg hb]
    rfl
  · unfold runGeneration
    simp only [if_neg hb]
    rfl

/-- **C7 (amended)** — when GENERATING completes successfully, the new
`ssot.outputs` is the previous list **with all BID_PDF and
SHOP_DRAWINGS_PDF entries removed**, then the fresh BID_PDF appended
(and a fresh SHOP_DRAWINGS_PDF when shop generation succeeds); the new
BID_PDF's version is `1 + max(existing BID_PDF versions, 0)` (so 1 when
none exists); entries of other types are still present afterwards — but
prior BID_PDF entries are not. -/
theorem claim_C7_outputs (env : GenEnv) (pid jid : String) (j : JobState)
    (hval : (validateSsotForGeneration j.ssot).filter isBlocking = []) :
    (runGeneration env pid jid j).status = "DONE"
    ∧ (runGeneration env pid jid j).ssot.outputs = some (
        ((j.ssot.outputs.getD []).filter
          (fun o => ¬ (o.otype = some "BID_PDF" ∨ o.otype = some "SHOP_DRAWINGS_PDF")))
        ++ [⟨env.bid.outputId, some "BID_PDF",
             some (versionFold (j.ssot.outputs.getD []) "BID_PDF"), BUCKET_OUTPUTS,
             pid ++ "/" ++ jid ++ "/bid-v"
               ++ toString (versionFold (j.ssot.outputs.getD []) "BID_PDF") ++ ".pdf",
             env.bid.generatedAt, env.bid.sha256⟩]
        ++ (env.shopResult.map (fun s =>
             (⟨s.outputId, some "SHOP_DRAWINGS_PDF",
               some (versionFold (j.ssot.outputs.getD []) "SHOP_DRAWINGS_PDF"), BUCKET_OUTPUTS,
               pid ++ "/" ++ jid ++ "/shop-drawings-v"
                 ++ toString (versionFold (j.ssot.outputs.getD []) "SHOP_DRAWINGS_PDF") ++ ".pdf",
               s.generatedAt, s.sha256⟩ : OutputEntry))).toList)
    ∧ versionFold (j.ssot.outputs.getD []) "BID_PDF"
        = 1 + (((j.ssot.outputs.getD []).filter (fun o => o.otype = some "BID_PDF")).map
            (fun o => o.version.getD 0)).foldl max 0
    ∧ ∀ o ∈ j.ssot.outputs.getD [], o.otype ≠ some "BID_PDF" →
        o.otype ≠ some "SHOP_DRAWINGS_PDF" →
        o ∈ (runGeneration env pid jid j).ssot.outputs.getD [] := by
  obtain ⟨h1, h2⟩ := runGeneration_success env pid jid j hval
  refine ⟨h1, h2, versionFold_char _ _, ?_⟩
  intro o ho ho1 ho2
  rw [h2]
  simp only [Option.getD_some]
  apply List.mem_append_left
  apply List.mem_append_left
  exact List.mem_filter.mpr ⟨ho, by simp [ho1, ho2]⟩

/-- The existing BID_PDF entry at version 1 that a re-generation drops. -/
def c7Old : OutputEntry :=
  ⟨"old-bid", some "BID_PDF", some 1, "outputs", "p/j/bid-v1.pdf", "T0", "aa"⟩

def c7Job : JobState :=
  { status := "PRICED",
    ssot := { Ssot.empty with outputs := some [c7Old] },
    stageProgress := none, errorCode := none, errorMessage := none,
    lockedAt := some 10, lockedBy := some "w", nextRunAt := none,
    retryCount := 0, maxRetries := 3 }

def c7Env : GenEnv := ⟨⟨"new-bid", "sha2", "T1"⟩, none⟩

/-- The concrete SSOT of `c7Job` passes the validation gate. -/
theorem c7Job_valid : (validateSsotForGeneration c7Job.ssot).filter isBlocking = [] := by
  have hv : validateSsotForGeneration c7Job.ssot = [] := by
    norm_num [validateSsotForGeneration, c7Job, Ssot.empty, duplicateSweep, dedupFirst]
  rw [hv]
  rfl

/-- **C7 counterexample** — the BID_PDF entry present in `ssot.outputs`
before the stage is gone afterwards: `run_generation` filters out all
prior BID_PDF / SHOP_DRAWINGS_PDF entries instead of appending to them,
so the claim's "entries already present are still present afterwards" is
false. -/
theorem claim_C7_counterexample :
    c7Old ∈ c7Job.ssot.outputs.getD []
    ∧ c7Old.otype = some "BID_PDF"
    ∧ c7Old ∉ (runGeneration c7Env "p" "j" c7Job).ssot.outputs.getD [] := by
  have h := runGeneration_success c7Env "p" "j" c7Job c7Job_valid
  refine ⟨by simp [c7Job, Ssot.empty], rfl, ?_⟩
  rw [h.2]
  simp only [Option.getD_some]
  decide

/-- **C7 witness** — the amended-outputs theorem at the concrete one-entry
history: the new list is exactly the fresh version-2 BID_PDF. -/
theorem claim_C7_witness :
    (validateSsotForGeneration c7Job.ssot).filter isBlocking = []
    ∧ (runGeneration c7Env "p" "j" c7Job).status = "DONE"
    ∧ versionFold (c7Job.ssot.outputs.getD []) "BID_PDF"
        = 1 + (((c7Job.ssot.outputs.getD []).filter (fun o => o.otype = some "BID_PDF")).map
            (fun o => o.version.getD 0)).foldl max 0 := by
  have h := claim_C7_outputs c7Env "p" "j" c7Job c7Job_valid
  exact ⟨c7Job_valid, h.1, h.2.2.1⟩

/-- The measurement-task loop only touches an item's flags. -/
theorem itemTasks_preserves (u : ℕ → String) (idx : ℕ) (item : Item) :
    (itemTasks u idx item).2.1.dimensions = item.dimensions := by
  simp only [itemTasks]
  split
  · split
    · rfl
    · rfl
  · rfl

theorem itemTasks_widthValue (u : ℕ → String) (idx : ℕ) (item : Item) :
    (itemTasks u idx item).2.1.widthValue = item.widthValue
    ∧ (itemTasks u idx item).2.1.heightValue = item.heightValue := by
  have h := itemTasks_preserves u idx item
  simp [Item.widthValue, Item.heightValue, h]

/-- An item with a missing width or height leaves the measurement-task
loop carrying the `NEEDS_REVIEW` flag. -/
theorem itemTasks_flagged (u : ℕ → String) (idx : ℕ) (item : Item)
    (hnull : item.widthValue = none ∨ item.heightValue = none) :
    (itemTasks u idx item).2.1.flags.contains "NEEDS_REVIEW" = true := by
  simp only [itemTasks]
  rw [if_pos hnull]
  split
  · assumption
  · simp

/-- Every item of the task-fold output comes from the fold's input list
through `itemTasks` (or was already in the accumulator). -/
theorem taskFold_mem (u : ℕ → String) :
    ∀ (items : List Item) (st : List MTask × List Item × ℕ × Bool) (x : Item),
      x ∈ (items.foldl (taskFoldStep u) st).2.1 →
      x ∈ st.2.1 ∨ ∃ it idx, it ∈ items ∧ x = (itemTasks u idx it).2.1 := by
  intro items
  induction items with
  | nil =>
    intro st x hx
    exact Or.inl hx
  | cons i t ih =>
    intro st x hx
    simp only [List.foldl_cons] at hx
    rcases ih _ x hx with h | ⟨it, idx, hmem, heq⟩
    · simp only [taskFoldStep] at h
      rcases List.mem_append.mp h with h | h
      · exact Or.inl h
      · right
        exact ⟨i, st.2.2.1, List.mem_cons_self _ _, by simpa using h⟩
    · right
      exact ⟨it, idx, List.mem_cons_of_mem _ hmem, heq⟩

/-- **C4 (amended)** — when EXTRACTING actually extracts (the items slice
was empty beforehand), every resulting item whose width or height value is
`null` carries the flag `NEEDS_REVIEW` (the code never writes
`TO_BE_VERIFIED_IN_FIELD`; that flag is only read downstream). -/
theorem claim_C4_missing_dims_flagged (doc : List String) (u : ℕ → String) (j : JobState)
    (hfresh : j.ssot.items.getD [] = []) :
    ∀ item ∈ ((runExtraction doc u j).ssot.items.getD []),
      (item.widthValue = none ∨ item.heightValue = none) →
      item.flags.contains "NEEDS_REVIEW" = true := by
  intro item hmem hnull
  have hcond : ¬ (j.ssot.items.getD [] ≠ []) := by simp [hfresh]
  simp only [runExtraction, if_neg hcond, updateJobStatus, Option.getD_some] at hmem
  rcases taskFold_mem u _ _ item hmem with h | ⟨it, idx, _, heq⟩
  · simp at h
  · subst heq
    have hw := itemTasks_widthValue u idx it
    rw [hw.1, hw.2] at hnull
    exact itemTasks_flagged u idx it hnull

/-- A one-page document whose only block mentions a shower but carries no
parsable dimensions. -/
def c4Doc : List String := ["frameless shower enclosure"]

def c4U : ℕ → String := fun _ => "uuid"

def c4Job : JobState :=
  { status := "ROUTED",
    ssot := { Ssot.empty with routing := some ⟨[0], 1⟩ },
    stageProgress := none, errorCode := none, errorMessage := none,
    lockedAt := some 10, lockedBy := some "w", nextRunAt := none,
    retryCount := 0, maxRetries := 3 }

def c4Fallback : Item :=
  ⟨"", "", "", "", "", "", ⟨none, none, none⟩, "", [], [], "", [], 0⟩

/-- **C4 counterexample** — after EXTRACTING, the extracted item has a
`null` width but its flags are `["NEEDS_REVIEW"]`: it does **not** bear
`TO_BE_VERIFIED_IN_FIELD`, refuting the claim as stated
(`extract.py` appends `NEEDS_REVIEW`, never `TO_BE_VERIFIED_IN_FIELD`). -/
theorem claim_C4_counterexample :
    ((runExtraction c4Doc c4U c4Job).ssot.items.getD []).length = 1
    ∧ (((runExtraction c4Doc c4U c4Job).ssot.items.getD []).headD c4Fallback).widthValue = none
    ∧ (((runExtraction c4Doc c4U c4Job).ssot.items.getD []).headD c4Fallback).flags
        = ["NEEDS_REVIEW"]
    ∧ (((runExtraction c4Doc c4U c4Job).ssot.items.getD []).headD c4Fallback).flags.contains
        "TO_BE_VERIFIED_IN_FIELD" = false := by
  decide

/-- **C4 witness** — the amended invariant applied to the concrete
extraction run. -/
theorem claim_C4_witness :
    c4Job.ssot.items.getD [] = []
    ∧ (((runExtraction c4Doc c4U c4Job).ssot.items.getD []).headD c4Fallback).flags.contains
        "NEEDS_REVIEW" = true :=
  ⟨by decide,
   claim_C4_missing_dims_flagged c4Doc c4U c4Job (by decide)
     (((runExtraction c4Doc c4U c4Job).ssot.items.getD []).headD c4Fallback)
     (by decide)
     (Or.inl (by decide))⟩


theorem mkDimEntry_value (v : Option ℚ) : (mkDimEntry v).value = v := by
  cases v <;> rfl

theorem mkBlockItem_pred (u : ℕ → String) (p idx : ℕ) (b cat : String) :
    itemPred (mkBlockItem u p idx b cat) := by
  simp only [itemPred, mkBlockItem, Item.widthValue, Item.heightValue,
    Option.some_bind, mkDimEntry_value]
  by_cases hcond : (extractDimensionsFromText b).width = none
      ∨ (extractDimensionsFromText b).height = none
  · simp [hcond]
  · simp [hcond]

theorem blockFold_char (u : ℕ → String) (p : ℕ) :
    ∀ (blocks : List String) (acc : List Item × ℕ),
      (blocks.foldl (blockStep u p) acc).2
          = acc.2 + (blocks.filter (fun b => (detectCategory b).isSome)).length
      ∧ (blocks.foldl (blockStep u p) acc).1.length
          = acc.1.length + (blocks.filter (fun b => (detectCategory b).isSome)).length
      ∧ ((blocks.filter (fun b => (detectCategory b).isSome)).length = 0 →
          blocks.foldl (blockStep u p) acc = acc)
      ∧ (∀ x ∈ (blocks.foldl (blockStep u p) acc).1, x ∈ acc.1 ∨ itemPred x) := by
  intro blocks
  induction blocks with
  | nil =>
    intro acc
    exact ⟨rfl, rfl, by simp, fun x hx => Or.inl hx⟩
  | cons b t ih =>
    intro acc
    simp only [List.foldl_cons, List.filter_cons]
    cases hc : detectCategory b with
    | none =>
      have hstep : blockStep u p acc b = acc := by
        simp only [blockStep, hc]
      simp only [hc, Option.isSome_none, Bool.false_eq_true, if_false, hstep]
      exact ih acc
    | some cat =>
      have hstep : blockStep u p acc b
          = (acc.1 ++ [mkBlockItem u p acc.2 b cat], acc.2 + 1) := by
        simp only [blockStep, hc]
      simp only [hc, Option.isSome_some, if_true, hstep, List.length_cons]
      obtain ⟨ih1, ih2, _, ih4⟩ := ih (acc.1 ++ [mkBlockItem u p acc.2 b cat], acc.2 + 1)
      refine ⟨by rw [ih1]; omega, by rw [ih2]; simp; omega, by intro h2; omega, ?_⟩
      intro x hx
      rcases ih4 x hx with hmem | hp
      · rcases List.mem_append.mp hmem with h | h
        · exact Or.inl h
        · right
          have hxe : x = mkBlockItem u p acc.2 b cat := by simpa using h
          rw [hxe]
          exact mkBlockItem_pred u p acc.2 b cat
      · exact Or.inr hp

theorem ExtractAcc.ext' (x y : ExtractAcc) (h1 : x.items = y.items)
    (h2 : x.assumptions = y.assumptions) (h3 : x.exclusions = y.exclusions)
    (h4 : x.uuidIdx = y.uuidIdx) : x = y := by
  cases x
  cases y
  simp_all

theorem extractPageStep_char (doc : List String) (pi : List PageEntry)
    (u : ℕ → String) (acc : ExtractAcc) (p : ℕ) :
    ((extractPageStep doc pi u acc p).items.length = acc.items.length + pageK doc p)
    ∧ ((extractPageStep doc pi u acc p).assumptions = acc.assumptions ++ pageA doc pi p)
    ∧ ((extractPageStep doc pi u acc p).exclusions = acc.exclusions ++ pageE doc pi p)
    ∧ ((extractPageStep doc pi u acc p).uuidIdx = acc.uuidIdx + pageK doc p)
    ∧ (pageK doc p = 0 → (extractPageStep doc pi u acc p).items = acc.items)
    ∧ (∀ x ∈ (extractPageStep doc pi u acc p).items, x ∈ acc.items ∨ itemPred x) := by
  cases hget : doc.get? p with
  | none =>
    simp only [extractPageStep, pageK, pageA, pageE, hget]
    refine ⟨by simp, by simp, by simp, by simp, by simp, fun x hx => Or.inl hx⟩
  | some text =>
    obtain ⟨b1, b2, b3, b4⟩ := blockFold_char u p (blocksOf text) ([], acc.uuidIdx)
    have hx : extractItemsFromPage u acc.uuidIdx p text
        = (blocksOf text).foldl (blockStep u p) ([], acc.uuidIdx) := rfl
    constructor
    · simp only [extractPageStep, hget, List.length_append, hx, b2, pageK, catBlocks]
      simp
    constructor
    · simp only [extractPageStep, pageA, hget]
      split
      · rfl
      · simp
    constructor
    · simp only [extractPageStep, pageE, hget]
      split
      · rfl
      · simp
    constructor
    · simp only [extractPageStep, hget, hx, b1, pageK, catBlocks]
    constructor
    · intro hk
      have h0 : ((blocksOf text).filter (fun b => (detectCategory b).isSome)).length = 0 := by
        simp only [pageK, hget, catBlocks] at hk
        exact hk
      simp only [extractPageStep, hget, hx, b3 h0]
      simp
    · intro x hx2
      simp only [extractPageStep, hget] at hx2
      rcases List.mem_append.mp hx2 with hmem | hmem
      · exact Or.inl hmem
      · rcases b4 x (by rw [← hx]; exact hmem) with hin | hp
        · simp at hin
        · exact Or.inr hp

theorem pageFold_char (doc : List String) (pi : List PageEntry) (u : ℕ → String) :
    ∀ (pages : List ℕ) (a : ExtractAcc),
      ((pages.foldl (extractPageStep doc pi u) a).items.length
          = a.items.length + (pages.map (pageK doc)).sum)
      ∧ (∀ x ∈ (pages.foldl (extractPageStep doc pi u) a).items,
          x ∈ a.items ∨ itemPred x) := by
  intro pages
  induction pages with
  | nil => intro a; exact ⟨by simp, fun x hx => Or.inl hx⟩
  | cons p ps ih =>
    intro a
    obtain ⟨s1, _, _, _, _, s6⟩ := extractPageStep_char doc pi u a p
    obtain ⟨ih1, ih2⟩ := ih (extractPageStep doc pi u a p)
    constructor
    · rw [List.foldl_cons, ih1, s1]
      simp [Nat.add_assoc]
    · intro x hx
      rcases ih2 x hx with hmem | hp
      · exact s6 x hmem
      · exact Or.inr hp

theorem pageFold_zero (doc : List String) (pi : List PageEntry) (u : ℕ → String) :
    ∀ (pages : List ℕ) (a : ExtractAcc),
      (∀ p ∈ pages, pageK doc p = 0) →
      pages.foldl (extractPageStep doc pi u) a
        = ⟨a.items, a.assumptions ++ (pages.map (pageA doc pi)).flatten,
           a.exclusions ++ (pages.map (pageE doc pi)).flatten, a.uuidIdx⟩ := by
  intro pages
  induction pages with
  | nil => intro a _; simp
  | cons p ps ih =>
    intro a hk
    obtain ⟨_, s2, s3, s4, s5, _⟩ := extractPageStep_char doc pi u a p
    have hk0 : pageK doc p = 0 := hk p (List.mem_cons_self p ps)
    have hstep : extractPageStep doc pi u a p
        = ⟨a.items, a.assumptions ++ pageA doc pi p,
           a.exclusions ++ pageE doc pi p, a.uuidIdx⟩ := by
      refine ExtractAcc.ext' _ _ (s5 hk0) s2 s3 ?_
      rw [s4, hk0, Nat.add_zero]
    rw [List.foldl_cons, hstep,
        ih _ (fun q hq => hk q (List.mem_cons_of_mem p hq))]
    simp [List.append_assoc]

theorem itemTasks_out (u : ℕ → String) (idx : ℕ) (it : Item) :
    (itemTasks u idx it).2.1.flags.contains "NEEDS_REVIEW"
      = (it.flags.contains "NEEDS_REVIEW"
         || decide (it.widthValue = none ∨ it.heightValue = none)) := by
  by_cases hnull : it.widthValue = none ∨ it.heightValue = none
  · rw [itemTasks_flagged u idx it hnull]
    simp [hnull]
  · simp only [itemTasks]
    rw [if_neg hnull]
    simp [hnull]

theorem itemTasks_ne (u : ℕ → String) (idx : ℕ) (it : Item) :
    decide ((itemTasks u idx it).1 ≠ [])
      = decide (it.widthValue = none ∨ it.heightValue = none) := by
  by_cases hw : it.widthValue = none
  · simp [itemTasks, hw]
  · by_cases hh : it.heightValue = none
    · simp [itemTasks, hw, hh]
    · simp [itemTasks, hw, hh]

theorem taskFold_char (u : ℕ → String) :
    ∀ (items : List Item) (st : List MTask × List Item × ℕ × Bool),
      ((items.foldl (taskFoldStep u) st).2.1.length = st.2.1.length + items.length)
      ∧ ((items.foldl (taskFoldStep u) st).2.2.2
          = (st.2.2.2
             || items.any (fun it =>
                  decide (it.widthValue = none ∨ it.heightValue = none))))
      ∧ ((∀ it ∈ items,
            it.flags.contains "NEEDS_REVIEW"
              = decide (it.widthValue = none ∨ it.heightValue = none)) →
          (items.foldl (taskFoldStep u) st).2.1.any
              (fun x => x.flags.contains "NEEDS_REVIEW")
            = (st.2.1.any (fun x => x.flags.contains "NEEDS_REVIEW")
               || items.any (fun it =>
                    decide (it.widthValue = none ∨ it.heightValue = none)))) := by
  intro items
  induction items with
  | nil =>
    intro st
    refine ⟨by simp, by simp, fun _ => by simp⟩
  | cons i t ih =>
    intro st
    obtain ⟨ih1, ih2, ih3⟩ := ih (taskFoldStep u st i)
    have hlen : (taskFoldStep u st i).2.1.length = st.2.1.length + 1 := by
      simp [taskFoldStep]
    have hflag : (taskFoldStep u st i).2.2.2
        = (st.2.2.2 || decide (i.widthValue = none ∨ i.heightValue = none)) := by
      simp only [taskFoldStep, itemTasks_ne]
    refine ⟨?_, ?_, ?_⟩
    · rw [List.foldl_cons, ih1, hlen]
      simp [List.length_cons]
      omega
    · rw [List.foldl_cons, ih2, hflag]
      simp [Bool.or_assoc]
    · intro hpred
      have hany : (taskFoldStep u st i).2.1.any
            (fun x => x.flags.contains "NEEDS_REVIEW")
          = (st.2.1.any (fun x => x.flags.contains "NEEDS_REVIEW")
             || decide (i.widthValue = none ∨ i.heightValue = none)) := by
        have hout := itemTasks_out u st.2.2.1 i
        rw [hpred i (List.mem_cons_self i t), Bool.or_self] at hout
        simp only [taskFoldStep, List.any_append, List.any_cons, List.any_nil,
          Bool.or_false]
        rw [hout]
      rw [List.foldl_cons,
          ih3 (fun x hx => hpred x (List.mem_cons_of_mem i hx)), hany]
      simp [Bool.or_assoc]

theorem runExtraction_noop (doc : List String) (u u2 : ℕ → String) (j : JobState) :
    (runExtraction doc u2 (runExtraction doc u j)).status
        = (runExtraction doc u j).status
    ∧ (runExtraction doc u2 (runExtraction doc u j)).ssot
        = (runExtraction doc u j).ssot := by
  by_cases h : j.ssot.items.getD [] = []
  · -- first run actually extracts
    have hr1 : runExtraction doc u j
        = updateJobStatus (updateJobStatus j "EXTRACTING" none none none false none)
            (if (taskFoldOf u (extractAccOf doc u j.ssot)).2.2.2
             then "NEEDS_REVIEW" else "EXTRACTED")
            (some { StageProgress.base "extracting" with
                    status := some "complete"
                    itemsFound := some (extractAccOf doc u j.ssot).items.length
                    measurementTasks :=
                      some (taskFoldOf u (extractAccOf doc u j.ssot)).1.length })
            none none (taskFoldOf u (extractAccOf doc u j.ssot)).2.2.2
            (some { j.ssot with
                    items := some (taskFoldOf u (extractAccOf doc u j.ssot)).2.1
                    assumptions :=
                      some (dedupFirst (extractAccOf doc u j.ssot).assumptions)
                    exclusions :=
                      some (dedupFirst (extractAccOf doc u j.ssot).exclusions)
                    measurementTasks :=
                      some (taskFoldOf u (extractAccOf doc u j.ssot)).1 }) := by
      simp only [runExtraction]
      rw [if_neg (not_not_intro h)]
    by_cases hA : (extractAccOf doc u j.ssot).items = []
    · -- nothing was extracted: the accumulator is canonical and uuid-independent
      have hU : taskFoldOf u (extractAccOf doc u j.ssot)
          = ([], [], (extractAccOf doc u j.ssot).uuidIdx, false) := by
        simp only [taskFoldOf, hA, List.foldl_nil]
      have hzero : ∀ p ∈ relevantPagesOf j.ssot, pageK doc p = 0 := by
        have hsum := (pageFold_char doc (j.ssot.pageIndex.getD []) u
            (relevantPagesOf j.ssot) ⟨[], [], [], 0⟩).1
        have hlen : ((relevantPagesOf j.ssot).map (pageK doc)).sum = 0 := by
          have h0 : (extractAccOf doc u j.ssot).items.length = 0 := by rw [hA]; rfl
          rw [show extractAccOf doc u j.ssot
                = (relevantPagesOf j.ssot).foldl
                    (extractPageStep doc (j.ssot.pageIndex.getD []) u) ⟨[], [], [], 0⟩
              from rfl, hsum] at h0
          simpa using h0
        intro p hp
        exact List.sum_eq_zero_iff.mp hlen _ (List.mem_map_of_mem _ hp)
      have hcanon1 : extractAccOf doc u j.ssot
          = ⟨[], ((relevantPagesOf j.ssot).map (pageA doc (j.ssot.pageIndex.getD []))).flatten,
              ((relevantPagesOf j.ssot).map (pageE doc (j.ssot.pageIndex.getD []))).flatten, 0⟩ :=
        pageFold_zero doc (j.ssot.pageIndex.getD []) u (relevantPagesOf j.ssot)
          ⟨[], [], [], 0⟩ hzero
      have hA2 : extractAccOf doc u2 ({ j.ssot with
            items := some ([] : List Item)
            assumptions := some (dedupFirst
              ((relevantPagesOf j.ssot).map (pageA doc (j.ssot.pageIndex.getD []))).flatten)
            exclusions := some (dedupFirst
              ((relevantPagesOf j.ssot).map (pageE doc (j.ssot.pageIndex.getD []))).flatten)
            measurementTasks := some ([] : List MTask) })
          = ⟨[], ((relevantPagesOf j.ssot).map (pageA doc (j.ssot.pageIndex.getD []))).flatten,
              ((relevantPagesOf j.ssot).map (pageE doc (j.ssot.pageIndex.getD []))).flatten, 0⟩ :=
        pageFold_zero doc (j.ssot.pageIndex.getD []) u2 (relevantPagesOf j.ssot)
          ⟨[], [], [], 0⟩ hzero
      rw [hr1, hU, hcanon1]
      constructor
      · simp only [runExtraction, updateJobStatus, Option.getD_some]
        simp [hA2, taskFoldOf]
      · simp only [runExtraction, updateJobStatus, Option.getD_some]
        simp [hA2, taskFoldOf]
    · -- items were extracted: the second run hits the idempotency guard
      have t1 := (taskFold_char u (extractAccOf doc u j.ssot).items
          ([], [], (extractAccOf doc u j.ssot).uuidIdx, false)).1
      have t2 := (taskFold_char u (extractAccOf doc u j.ssot).items
          ([], [], (extractAccOf doc u j.ssot).uuidIdx, false)).2.1
      have t3 := (taskFold_char u (extractAccOf doc u j.ssot).items
          ([], [], (extractAccOf doc u j.ssot).uuidIdx, false)).2.2
      have hpred : ∀ it ∈ (extractAccOf doc u j.ssot).items,
          it.flags.contains "NEEDS_REVIEW"
            = decide (it.widthValue = none ∨ it.heightValue = none) := by
        intro it hit
        rcases (pageFold_char doc (j.ssot.pageIndex.getD []) u
            (relevantPagesOf j.ssot) ⟨[], [], [], 0⟩).2 it hit with h0 | hp
        · simp at h0
        · exact hp
      have hflags : (taskFoldOf u (extractAccOf doc u j.ssot)).2.2.2
          = (extractAccOf doc u j.ssot).items.any
              (fun it => decide (it.widthValue = none ∨ it.heightValue = none)) := by
        simpa [taskFoldOf] using t2
      have hany : (taskFoldOf u (extractAccOf doc u j.ssot)).2.1.any
            (fun x => x.flags.contains "NEEDS_REVIEW")
          = (extractAccOf doc u j.ssot).items.any
              (fun it => decide (it.widthValue = none ∨ it.heightValue = none)) := by
        simpa [taskFoldOf] using t3 hpred
      have hUne : (taskFoldOf u (extractAccOf doc u j.ssot)).2.1 ≠ [] := by
        intro hnil
        have hlen0 : (taskFoldOf u (extractAccOf doc u j.ssot)).2.1.length = 0 := by
          rw [hnil]; rfl
        rw [show (taskFoldOf u (extractAccOf doc u j.ssot)).2.1
              = ((extractAccOf doc u j.ssot).items.foldl (taskFoldStep u)
                  ([], [], (extractAccOf doc u j.ssot).uuidIdx, false)).2.1
            from rfl, t1] at hlen0
        simp at hlen0
        exact hA hlen0
      rw [hr1]
      constructor
      · simp only [runExtraction, updateJobStatus, Option.getD_some]
        rw [if_pos hUne, hany, hflags]
      · simp only [runExtraction, updateJobStatus, Option.getD_some]
        rw [if_pos hUne]
  · -- idempotency guard in the first run
    have hr1 : runExtraction doc u j
        = updateJobStatus (updateJobStatus j "EXTRACTING" none none none false none)
            (if (j.ssot.items.getD []).any (fun it => it.flags.contains "NEEDS_REVIEW")
             then "NEEDS_REVIEW" else "EXTRACTED")
            (some { StageProgress.base "extracting" with
                    status := some "complete_skipped" })
            none none
            ((j.ssot.items.getD []).any (fun it => it.flags.contains "NEEDS_REVIEW"))
            none := by
      simp only [runExtraction]
      rw [if_pos h]
    rw [hr1]
    constructor
    · simp only [runExtraction, updateJobStatus]
      rw [if_pos h]
    · simp only [runExtraction, updateJobStatus]
      rw [if_pos h]

theorem find_unique {α : Type} (p : α → Bool) (l : List α) (a : α)
    (hex : ∃ x ∈ l, p x = true) (huniq : ∀ x ∈ l, p x = true → x = a) :
    l.find? p = some a := by
  induction l with
  | nil => simp at hex
  | cons x t ih =>
    by_cases hx : p x = true
    · rw [List.find?_cons_of_pos _ hx, huniq x (List.mem_cons_self x t) hx]
    · rw [List.find?_cons_of_neg _ (by simpa using hx)]
      apply ih
      · rcases hex with ⟨y, hy, hp⟩
        rcases List.mem_cons.mp hy with rfl | hyt
        · exact absurd hp hx
        · exact ⟨y, hyt, hp⟩
      · exact fun y hy hp => huniq y (List.mem_cons_of_mem x hy) hp

theorem priceLine_itemId (prev : List LineItem) (rules : List Rule) (i : Item) :
    (priceLine prev rules i).1.itemId = i.itemId := by
  cases hf : findOverride prev i.itemId with
  | none => simp only [priceLine, hf]
  | some l =>
    have hl := List.find?_some hf
    simp only [Bool.and_eq_true, decide_eq_true_eq] at hl
    simp only [priceLine, hf]
    exact hl.1

theorem priceLine_congr (p1 p2 : List LineItem) (rules : List Rule) (i : Item)
    (h : findOverride p1 i.itemId = findOverride p2 i.itemId) :
    priceLine p1 rules i = priceLine p2 rules i := by
  simp only [priceLine, h]

theorem priceLine_stable (prev : List LineItem) (rules : List Rule)
    (items : List Item) (item : Item) (hmem : item ∈ items) :
    priceLine (items.map (fun i => (priceLine prev rules i).1)) rules item
      = priceLine prev rules item := by
  cases hf : findOverride prev item.itemId with
  | some l =>
    have hl := List.find?_some hf
    have hfind2 : findOverride (items.map (fun i => (priceLine prev rules i).1))
        item.itemId = some l := by
      apply find_unique
      · refine ⟨(priceLine prev rules item).1, List.mem_map_of_mem _ hmem, ?_⟩
        simp only [priceLine, hf]
        exact hl
      · intro x hx hpx
        rcases List.mem_map.mp hx with ⟨i, hi, rfl⟩
        have hid : i.itemId = item.itemId := by
          rw [← priceLine_itemId prev rules i]
          simp only [Bool.and_eq_true, decide_eq_true_eq] at hpx
          exact hpx.1
        have hfi : findOverride prev i.itemId = some l := by rw [hid]; exact hf
        simp only [priceLine, hfi]
    exact priceLine_congr _ _ rules item (by rw [hfind2, hf])
  | none =>
    have hfind2 : findOverride (items.map (fun i => (priceLine prev rules i).1))
        item.itemId = none := by
      rw [findOverride, List.find?_eq_none]
      intro x hx
      rcases List.mem_map.mp hx with ⟨i, hi, rfl⟩
      by_cases hid : i.itemId = item.itemId
      · have hfi : findOverride prev i.itemId = none := by rw [hid]; exact hf
        simp only [priceLine, hfi]
        simp
      · rw [priceLine_itemId prev rules i]
        simp [hid]
    exact priceLine_congr _ _ rules item (by rw [hfind2, hf])

theorem runPricing_noop (pb : Option Pricebook) (rules : List Rule) (j : JobState) :
    (runPricing pb rules (runPricing pb rules j)).status
        = (runPricing pb rules j).status
    ∧ (runPricing pb rules (runPricing pb rules j)).ssot
        = (runPricing pb rules j).ssot := by
  refine ⟨rfl, ?_⟩
  have hmap : (j.ssot.items.getD []).map
        (priceLine (((j.ssot.items.getD []).map
            (priceLine ((j.ssot.pricing.map (·.lineItems)).getD []) rules)).map
          (fun x => x.1))
          rules)
      = (j.ssot.items.getD []).map
          (priceLine ((j.ssot.pricing.map (·.lineItems)).getD []) rules) := by
    rw [List.map_map]
    refine List.map_congr_left (fun i hi => ?_)
    have hst := priceLine_stable ((j.ssot.pricing.map (·.lineItems)).getD []) rules
      (j.ssot.items.getD []) i hi
    simpa [Function.comp] using hst
  simp only [runPricing, updateJobStatus, Option.getD_some, Option.map_some,
    Option.map_some', Option.getD_some]
  rw [hmap]

theorem runIndexing_noop (doc : List String) (j : JobState) :
    (runIndexing doc (runIndexing doc j)).status = (runIndexing doc j).status
    ∧ (runIndexing doc (runIndexing doc j)).ssot = (runIndexing doc j).ssot := by
  by_cases h : j.ssot.pageIndex.getD [] = []
  · by_cases hd : doc = []
    · subst hd
      constructor <;>
        simp [runIndexing, updateJobStatus, if_neg (not_not_intro h)]
    · have hne : doc.length ≠ 0 := fun h2 => hd (List.length_eq_zero.mp h2)
      constructor <;>
        simp [runIndexing, updateJobStatus, if_neg (not_not_intro h),
          List.map_eq_nil_iff, List.range_eq_nil, hne]
  · constructor <;> simp only [runIndexing, updateJobStatus, if_pos h]

theorem runRouting_noop (j : JobState) :
    (runRouting (runRouting j)).status = (runRouting j).status
    ∧ (runRouting (runRouting j)).ssot = (runRouting j).ssot := by
  by_cases h : j.ssot.pageIndex.getD [] = []
  · constructor <;> simp only [runRouting, updateJobStatus, if_pos h]
  · constructor <;> simp only [runRouting, updateJobStatus, if_neg h]

theorem runGeneration_items_pricing (env : GenEnv) (pid jid : String) (j : JobState) :
    (runGeneration env pid jid j).ssot.items = j.ssot.items
    ∧ (runGeneration env pid jid j).ssot.pricing = j.ssot.pricing := by
  simp only [runGeneration, updateJobStatus]
  split <;> exact ⟨rfl, rfl⟩

theorem validate_congr (s1 s2 : Ssot) (hi : s1.items = s2.items)
    (hp : s1.pricing = s2.pricing) :
    validateSsotForGeneration s1 = validateSsotForGeneration s2 := by
  simp only [validateSsotForGeneration, hi, hp]

/-- **C5 (amended)** — re-running a stage on its own output is a no-op
(status and SSOT unchanged) for INDEXING, ROUTING, EXTRACTING and PRICING:
INDEXING and EXTRACTING skip through their entry guards when the slice
they write is already non-empty, while ROUTING and PRICING recompute the
same result deterministically (with the same pricebook and rules).  The
claim fails for GENERATING — see the counterexample. -/
theorem claim_C5_stage_idempotence :
    (∀ (doc : List String) (j : JobState),
        (runIndexing doc (runIndexing doc j)).status = (runIndexing doc j).status
        ∧ (runIndexing doc (runIndexing doc j)).ssot = (runIndexing doc j).ssot)
    ∧ (∀ j : JobState,
        (runRouting (runRouting j)).status = (runRouting j).status
        ∧ (runRouting (runRouting j)).ssot = (runRouting j).ssot)
    ∧ (∀ (doc : List String) (u u2 : ℕ → String) (j : JobState),
        (runExtraction doc u2 (runExtraction doc u j)).status
            = (runExtraction doc u j).status
        ∧ (runExtraction doc u2 (runExtraction doc u j)).ssot
            = (runExtraction doc u j).ssot)
    ∧ (∀ (pb : Option Pricebook) (rules : List Rule) (j : JobState),
        (runPricing pb rules (runPricing pb rules j)).status
            = (runPricing pb rules j).status
        ∧ (runPricing pb rules (runPricing pb rules j)).ssot
            = (runPricing pb rules j).ssot) :=
  ⟨runIndexing_noop, runRouting_noop, runExtraction_noop, runPricing_noop⟩

/-- **C5 counterexample** — GENERATING is not idempotent: re-running it on
its own output replaces the BID_PDF entry with one carrying the next
version (v2 becomes v3 on the concrete job `c7Job`), so the SSOT changes. -/
theorem claim_C5_counterexample :
    (runGeneration c7Env "p" "j" (runGeneration c7Env "p" "j" c7Job)).ssot
      ≠ (runGeneration c7Env "p" "j" c7Job).ssot := by
  have h1 := runGeneration_success c7Env "p" "j" c7Job c7Job_valid
  have hfields := runGeneration_items_pricing c7Env "p" "j" c7Job
  have hval2 : (validateSsotForGeneration
      (runGeneration c7Env "p" "j" c7Job).ssot).filter isBlocking = [] := by
    rw [validate_congr _ c7Job.ssot hfields.1 hfields.2]
    exact c7Job_valid
  have h2 := runGeneration_success c7Env "p" "j"
    (runGeneration c7Env "p" "j" c7Job) hval2
  rw [h1.2] at h2
  simp only [Option.getD_some] at h2
  intro heq
  have houts := congrArg Ssot.outputs heq
  rw [h2.2, h1.2] at houts
  revert houts
  decide

end GlassBid
